import Mathlib

/-!
# Verification of the GestMEDACAP task/subtask core

Shallow embedding of the task domain model, the RACI repositories, the
progress-recomputation database trigger and the `TaskService` use cases
(`createTask`, `updateTask`, `createSubTask`, `updateSubTaskStatus`,
`canModifyTask`, `canChangePhase`, `isTaskLocked`) of the MEDACAP backend.

Conventions of the embedding:
* user uuids, task ids, subtask ids, page ids and timestamps are `Nat`;
* the `progress` column is `decimal(5,2)` in the live schema, so it is held
  as a `Nat` counting hundredths of a percent (`progressCenti`,
  0 .. 10000);
* SQL statements issued inside a knex transaction are pure state
  transformations on a `DB` value; a statement that would raise an SQL
  error (primary-key or foreign-key violation) is modelled with `Except`;
* the knex transaction wrapper commits when the callback returns (even a
  `Result.failure`) and rolls back when the callback throws, exactly as
  `BaseKnexRepository.transaction` behaves;
* every use case returns a trace of `TraceEntry` recording, in order, the
  SQL writes it issued, the realtime events it emitted through the broker
  and the final commit/rollback of its transaction.
-/

namespace Medacap

/-- The two-variant success/failure container (`Result` in
`core/domain/shared/Result.ts`). -/
inductive Result (α : Type) (ε : Type) where
  | success : α → Result α ε
  | failure : ε → Result α ε
  deriving DecidableEq, Repr

namespace Result

/-- `Result.isSuccess`. -/
def isSuccess {α ε : Type} : Result α ε → Bool
  | .success _ => true
  | .failure _ => false

/-- `Result.isFailure`. -/
def isFailure {α ε : Type} (r : Result α ε) : Bool := !r.isSuccess

end Result

/-- Error values surfaced as `Result` failures by the embedded core.
Constructors mirror the `new Error(...)` sites of the source. -/
inductive Err where
  | taskNotFound (taskId : Nat)
  | subTaskNotFound (subtaskId : Nat)
  | profileNotFound (code : String)
  | validation (msg : String)
  | forbidden (msg : String)
  | lockConflict (taskId : Nat)
  | dbError (msg : String)
  deriving DecidableEq, Repr

/-- RACI letters (`RaciLetter` value object; DB enum `raci_letter`). -/
inductive RaciLetter where
  | R | A | C | I
  deriving DecidableEq, Repr

/-- User roles (`roleSchema = z.enum(['CP','RF','DEV','STG','UF'])`). -/
inductive Role where
  | CP | RF | DEV | STG | UF
  deriving DecidableEq, Repr

/-- The 7 valid phase codes (`PhaseCode.validCodes`). -/
def validPhaseCodes : List String := ["M", "E", "D", "A", "C", "A2", "P"]

/-- A row of the `task` table; also the field set of the `Task` domain
entity (the entity and its DTO carry exactly these fields). -/
structure Task where
  id : Nat
  phaseCode : String
  pageId : Option Nat
  title : String
  description : Option String
  priority : Int
  ownerUuid : Option Nat
  progressCenti : Nat
  createdBy : Nat
  createdAt : Nat
  updatedAt : Nat
  plannedStart : Option Nat
  plannedEnd : Option Nat
  deriving DecidableEq, Repr

/-- A row of the `subtask` table / the `SubTask` entity field set. -/
structure SubTask where
  id : Nat
  taskId : Nat
  title : String
  description : Option String
  done : Bool
  createdBy : Nat
  createdAt : Nat
  updatedAt : Nat
  deriving DecidableEq, Repr

/-- A row of `task_raci` (primary key `(task_id, user_uuid)`). -/
structure TaskRaci where
  taskId : Nat
  userUuid : Nat
  letter : RaciLetter
  deriving DecidableEq, Repr

/-- A row of `subtask_raci` (primary key `(subtask_id, user_uuid)`). -/
structure SubTaskRaci where
  subtaskId : Nat
  userUuid : Nat
  letter : RaciLetter
  deriving DecidableEq, Repr

/-- A row of `task_profile` (primary key `(task_id, profile_code)`). -/
structure TaskProfile where
  taskId : Nat
  profileCode : String
  deriving DecidableEq, Repr

/-- The relational state the core manipulates.  `profiles` is the set of
codes present in the `profile` catalog table. -/
structure DB where
  tasks : List Task
  subtasks : List SubTask
  taskRaci : List TaskRaci
  subtaskRaci : List SubTaskRaci
  taskProfiles : List TaskProfile
  profiles : List String
  deriving DecidableEq, Repr

/-- Realtime events emitted through `IRealtimeBroker`. -/
inductive Event where
  | taskCreated (taskId : Nat)
  | taskUpdated (taskId : Nat)
  | taskDeleted (taskId : Nat)
  | subTaskUpdated (subtaskId : Nat)
  deriving DecidableEq, Repr

/-- One step of an observable use-case trace: an SQL write issued inside
the open transaction, a broker emission, or the transaction boundary. -/
inductive TraceEntry where
  | dbWrite (tbl : String)
  | emit (e : Event)
  | commit
  | rollback
  deriving DecidableEq, Repr

/-! ## Rounding and the progress trigger

The live migration installs

```sql
CREATE FUNCTION fn_task_progress() RETURNS trigger AS $$
BEGIN
  UPDATE task SET progress = (
    SELECT ROUND(COALESCE(AVG(CASE WHEN done THEN 100 ELSE 0 END),0),2)
    FROM subtask WHERE task_id = NEW.task_id)
  WHERE id = NEW.task_id;
  RETURN NEW;
END
CREATE TRIGGER subtask_progress AFTER INSERT OR UPDATE OF done ON subtask
FOR EACH ROW EXECUTE FUNCTION fn_task_progress();
```

together with `CREATE TRIGGER task_updated BEFORE UPDATE ON task ... SET
NEW.updated_at := now()`.  `ROUND(x, 2)` rounds half away from zero, which
for the non-negative averages involved is round-half-up. -/

/-- Round-half-up of the non-negative rational `num / den`. -/
def roundHalfUp (num den : Nat) : Nat := (2 * num + den) / (2 * den)

/-- The blank-title test `!title || title.trim().length === 0`: true iff
every character of the string is whitespace (in particular for the empty
string). -/
def isBlank (s : String) : Bool := s.data.all fun c => c.isWhitespace

/-- The `start && end && start > end` guard shared by `Task.create` and
`Task.updatePlannedDates`. -/
def badDateOrder (start? stop? : Option Nat) : Bool :=
  match start?, stop? with
  | some s, some e => s > e
  | _, _ => false

/-- The value, in hundredths of a percent, that `fn_task_progress` stores
for a task: `ROUND(AVG(done ? 100 : 0), 2)` over its subtasks, `0` when it
has none. -/
def triggerProgressCenti (db : DB) (taskId : Nat) : Nat :=
  let subs := db.subtasks.filter (fun s => s.taskId = taskId)
  let total := subs.length
  let doneCount := (subs.filter (fun s => s.done)).length
  if total = 0 then 0 else roundHalfUp (10000 * doneCount) total

/-- Effect of the `subtask_progress` trigger firing for `taskId` at time
`now`: the parent row's `progress` is rewritten unconditionally, and the
`task_updated` trigger stamps its `updated_at`. -/
def fn_task_progress (db : DB) (taskId : Nat) (now : Nat) : DB :=
  { db with
    tasks := db.tasks.map fun t =>
      if t.id = taskId then
        { t with progressCenti := triggerProgressCenti db taskId, updatedAt := now }
      else t }

/-! ## The `Task` entity (`core/domain/task/Task.ts`) -/

namespace Task

/-- `Task.create`: the static factory validating all invariants.  It
returns the row unchanged on success.  The `PhaseCode` constructor check
(membership in the 7 codes) runs inside the `private constructor` after
the explicit guards, hence last. -/
def create (t : Task) : Result Task Err :=
  if isBlank t.title then .failure (.validation "Task title is required")
  else if t.phaseCode = "" then .failure (.validation "Phase code is required")
  else if t.priority < 1 ∨ t.priority > 5 then
    .failure (.validation "Priority must be between 1 and 5")
  else if t.progressCenti > 10000 then
    .failure (.validation "Progress must be between 0 and 100")
  else if badDateOrder t.plannedStart t.plannedEnd then
    .failure (.validation "Planned start date must be before planned end date")
  else if ¬ validPhaseCodes.contains t.phaseCode then
    .failure (.validation "Invalid phase code")
  else .success t

/-- `Task.updateTitle`: in-place mutation returning `Result<void>`; the
embedding returns the (possibly unchanged) entity next to the outcome. -/
def updateTitle (t : Task) (title : String) (now : Nat) : Task × Result Unit Err :=
  if isBlank title then (t, .failure (.validation "Task title is required"))
  else ({ t with title := title, updatedAt := now }, .success ())

/-- `Task.updateDescription` (always succeeds). -/
def updateDescription (t : Task) (description : Option String) (now : Nat) :
    Task × Result Unit Err :=
  ({ t with description := description, updatedAt := now }, .success ())

/-- `Task.updatePriority` via the `Priority` value object (1..5). -/
def updatePriority (t : Task) (priority : Int) (now : Nat) : Task × Result Unit Err :=
  if priority < 1 ∨ priority > 5 then
    (t, .failure (.validation "Invalid priority value"))
  else ({ t with priority := priority, updatedAt := now }, .success ())

/-- `Task.updatePhase` via the `PhaseCode` value object. -/
def updatePhase (t : Task) (code : String) (now : Nat) : Task × Result Unit Err :=
  if validPhaseCodes.contains code then
    ({ t with phaseCode := code, updatedAt := now }, .success ())
  else (t, .failure (.validation "Invalid phase code"))

/-- `Task.updateOwner` (a well-formed uuid always succeeds). -/
def updateOwner (t : Task) (ownerUuid : Option Nat) (now : Nat) :
    Task × Result Unit Err :=
  ({ t with ownerUuid := ownerUuid, updatedAt := now }, .success ())

/-- `Task.updateProgress` (0..100, i.e. 0..10000 hundredths). -/
def updateProgress (t : Task) (progressCenti : Int) (now : Nat) :
    Task × Result Unit Err :=
  if progressCenti < 0 ∨ progressCenti > 10000 then
    (t, .failure (.validation "Progress must be between 0 and 100"))
  else ({ t with progressCenti := progressCenti.toNat, updatedAt := now }, .success ())

/-- `Task.updatePlannedDates`: refuses `start > end` when both are given,
otherwise replaces both planned dates. -/
def updatePlannedDates (t : Task) (start? stop? : Option Nat) (now : Nat) :
    Task × Result Unit Err :=
  if badDateOrder start? stop? then
    (t, .failure (.validation "Planned start date must be before planned end date"))
  else ({ t with plannedStart := start?, plannedEnd := stop?, updatedAt := now },
        .success ())

end Task

/-! ## The `SubTask` entity (`core/domain/task/SubTask.ts`) -/

namespace SubTask

/-- `SubTask.create`. -/
def create (s : SubTask) : Result SubTask Err :=
  if isBlank s.title then .failure (.validation "SubTask title is required")
  else .success s

/-- `SubTask.markCompleted`. -/
def markCompleted (s : SubTask) (now : Nat) : SubTask :=
  { s with done := true, updatedAt := now }

/-- `SubTask.markIncomplete`. -/
def markIncomplete (s : SubTask) (now : Nat) : SubTask :=
  { s with done := false, updatedAt := now }

end SubTask

/-! ## Repositories

`findById` maps the row through `toDomain`, which re-runs the entity
factory; an absent row is the not-found failure. -/

/-- `TaskKnexRepository.findById` (row lookup + `toDomain` validation). -/
def findTaskById (db : DB) (taskId : Nat) : Result Task Err :=
  match db.tasks.find? (fun t => t.id = taskId) with
  | none => .failure (.taskNotFound taskId)
  | some row => Task.create row

/-- `SubTaskKnexRepository.findById`. -/
def findSubTaskById (db : DB) (subtaskId : Nat) : Result SubTask Err :=
  match db.subtasks.find? (fun s => s.id = subtaskId) with
  | none => .failure (.subTaskNotFound subtaskId)
  | some row => SubTask.create row

/-- `RaciKnexRepository.findByTaskId`: the `(userUuid, letter)` entries of
a task, in row order.  The underlying select cannot fail. -/
def findRaciByTaskId (db : DB) (taskId : Nat) : List (Nat × RaciLetter) :=
  (db.taskRaci.filter (fun r => r.taskId = taskId)).map fun r => (r.userUuid, r.letter)

/-- `RaciKnexRepository.findBySubTaskId`. -/
def findRaciBySubTaskId (db : DB) (subtaskId : Nat) : List (Nat × RaciLetter) :=
  (db.subtaskRaci.filter (fun r => r.subtaskId = subtaskId)).map fun r =>
    (r.userUuid, r.letter)

/-- `RaciKnexRepository.saveTaskRaci`: select the `(taskId, userUuid)`
row first; update its letter when present, insert a fresh row
otherwise. -/
def saveTaskRaci (db : DB) (taskId userUuid : Nat) (letter : RaciLetter) : DB :=
  if db.taskRaci.any (fun r => r.taskId = taskId ∧ r.userUuid = userUuid) then
    { db with
      taskRaci := db.taskRaci.map fun r =>
        if r.taskId = taskId ∧ r.userUuid = userUuid then { r with letter := letter }
        else r }
  else
    { db with taskRaci := db.taskRaci ++ [⟨taskId, userUuid, letter⟩] }

/-- `RaciKnexRepository.saveSubTaskRaci`. -/
def saveSubTaskRaci (db : DB) (subtaskId userUuid : Nat) (letter : RaciLetter) : DB :=
  if db.subtaskRaci.any (fun r => r.subtaskId = subtaskId ∧ r.userUuid = userUuid) then
    { db with
      subtaskRaci := db.subtaskRaci.map fun r =>
        if r.subtaskId = subtaskId ∧ r.userUuid = userUuid then { r with letter := letter }
        else r }
  else
    { db with subtaskRaci := db.subtaskRaci ++ [⟨subtaskId, userUuid, letter⟩] }

/-- `RaciKnexRepository.deleteAllForSubTask`. -/
def deleteAllForSubTask (db : DB) (subtaskId : Nat) : DB :=
  { db with subtaskRaci := db.subtaskRaci.filter (fun r => ¬ r.subtaskId = subtaskId) }

/-- `SubTaskKnexRepository.calculateTaskProgress`: integer percentage
`Math.round(completed / total * 100)`, `0` when the task has no subtasks.
Returned here in hundredths of a percent to share the unit of the stored
column. -/
def calculateTaskProgressCenti (db : DB) (taskId : Nat) : Nat :=
  let subs := db.subtasks.filter (fun s => s.taskId = taskId)
  let total := subs.length
  let doneCount := (subs.filter (fun s => s.done)).length
  if total = 0 then 0 else 100 * roundHalfUp (100 * doneCount) total

/-- `SubTaskKnexRepository.save` for an existing subtask: update the
mutable columns, stamp `updated_at`, after which the `subtask_progress`
trigger fires (the write touches the completion column). -/
def subTaskSaveExisting (db : DB) (s : SubTask) (now : Nat) : DB :=
  let db1 : DB :=
    { db with
      subtasks := db.subtasks.map fun r =>
        if r.id = s.id then
          { r with title := s.title, description := s.description, done := s.done,
                   updatedAt := now }
        else r }
  fn_task_progress db1 s.taskId now

/-! ## Authorization and the lock stub (`TaskService`) -/

/-- Soft-lock state returned by `isTaskLocked`. -/
structure LockInfo where
  locked : Bool
  lockedBy : Option Nat
  deriving DecidableEq, Repr

/-- `TaskService.isTaskLocked`: the post-MVP stub; no lock is ever
reported. -/
def isTaskLocked (taskId userUuid : Nat) : Result LockInfo Err :=
  .success { locked := false, lockedBy := none }

/-- `TaskService.canModifyTask`: CP/RF always may; then the owner; then a
task-level RACI letter R or A, subject to the soft-lock conflict check. -/
def canModifyTask (db : DB) (taskId userUuid : Nat) (role : Role) :
    Result Bool Err :=
  if role = .CP ∨ role = .RF then .success true
  else
    match findTaskById db taskId with
    | .failure e => .failure e
    | .success task =>
      if task.ownerUuid = some userUuid then .success true
      else
        let raciAssignments := findRaciByTaskId db taskId
        let hasPermission := raciAssignments.any fun r =>
          r.1 = userUuid ∧ (r.2 = .R ∨ r.2 = .A)
        if ¬ hasPermission then .success false
        else
          match isTaskLocked taskId userUuid with
          | .failure e => .failure e
          | .success lockInfo =>
            if lockInfo.locked ∧ ¬ lockInfo.lockedBy = some userUuid then
              .failure (.lockConflict taskId)
            else .success true

/-- `TaskService.canChangePhase`: only CP/RF or the owner. -/
def canChangePhase (db : DB) (taskId userUuid : Nat) (role : Role) :
    Result Bool Err :=
  if role = .CP ∨ role = .RF then .success true
  else
    match findTaskById db taskId with
    | .failure e => .failure e
    | .success task =>
      if task.ownerUuid = some userUuid then .success true
      else .success false

/-! ## Transaction wrapper

`BaseKnexRepository.transaction` hands the callback to
`knex.transaction`: a callback that *returns* (even a `Result.failure`)
commits, a callback that *throws* rolls back and the wrapper converts the
exception into a `Result.failure`. -/

/-- How a transaction callback finishes: a returned `Result`, or a thrown
exception (an SQL error). -/
inductive TxResult (α : Type) where
  | ok : Result α Err → TxResult α
  | thrown : Err → TxResult α
  deriving DecidableEq, Repr

/-- `knex.transaction` + `BaseKnexRepository.transaction`: commit on
return, rollback (restoring the entry state) on throw. -/
def runTransaction {α : Type} (db : DB)
    (body : DB → TxResult α × DB × List TraceEntry) :
    Result α Err × DB × List TraceEntry :=
  match body db with
  | (.ok r, db1, tr) => (r, db1, tr ++ [.commit])
  | (.thrown e, _, tr) => (.failure e, db, tr ++ [.rollback])

/-- `ORDER BY created_at DESC ... first()`: the leftmost row holding the
maximal `created_at` among the filtered rows. -/
def firstByCreatedAtDesc {α : Type} (createdAt : α → Nat) :
    List α → Option α
  | [] => none
  | x :: xs =>
    match firstByCreatedAtDesc createdAt xs with
    | none => some x
    | some b => if createdAt b > createdAt x then some b else some x

/-! ## `TaskService.updateSubTaskStatus` -/

/-- `TaskService.updateSubTaskStatus`: load the subtask, authorize against
the parent, toggle via the entity, persist through
`SubTaskKnexRepository.save` (whereupon the `subtask_progress` trigger
recomputes the parent's progress), emit `subtask updated`, re-fetch the
parent and emit `task updated` when the fetch succeeds. -/
def updateSubTaskStatus (db : DB) (subtaskId : Nat) (done : Bool)
    (userUuid : Nat) (role : Role) (now : Nat) :
    Result SubTask Err × DB × List TraceEntry :=
  match findSubTaskById db subtaskId with
  | .failure e => (.failure e, db, [])
  | .success subtask =>
    let taskId := subtask.taskId
    match canModifyTask db taskId userUuid role with
    | .failure e => (.failure e, db, [])
    | .success canModify =>
      if ¬ canModify then
        (.failure (.forbidden "needs R or A or be owner/CP/RF"), db, [])
      else
        let subtask1 :=
          if done then subtask.markCompleted now else subtask.markIncomplete now
        let db1 := subTaskSaveExisting db subtask1 now
        match findSubTaskById db1 subtaskId with
        | .failure e => (.failure e, db1, [.dbWrite "subtask"])
        | .success updatedSubtask =>
          let tr := [TraceEntry.dbWrite "subtask",
                     .emit (.subTaskUpdated subtaskId)]
          match findTaskById db1 taskId with
          | .success _ =>
            (.success updatedSubtask, db1, tr ++ [.emit (.taskUpdated taskId)])
          | .failure _ => (.success updatedSubtask, db1, tr)

/-! ## `TaskService.createTask` -/

/-- The optional `raci` map of the create/update inputs. -/
structure RaciInput where
  r : List Nat
  a : List Nat
  c : List Nat
  i : List Nat
  deriving DecidableEq, Repr

/-- The `(letter, user)` pairs the service iterates over: letters in the
fixed order `R, A, C, I`, users in list order. -/
def RaciInput.pairs (x : RaciInput) : List (RaciLetter × Nat) :=
  x.r.map (fun u => (RaciLetter.R, u)) ++ x.a.map (fun u => (RaciLetter.A, u)) ++
  x.c.map (fun u => (RaciLetter.C, u)) ++ x.i.map (fun u => (RaciLetter.I, u))

/-- The `(letter, user)` pairs of an optional RACI map: an absent map
contributes none (the service's loop simply does not run). -/
def raciPairsOpt (x? : Option RaciInput) : List (RaciLetter × Nat) :=
  match x? with
  | some x => x.pairs
  | none => []

/-- `CreateTaskInput` (no `progress` field exists on it). -/
structure CreateTaskInput where
  phaseCode : String
  pageId : Option Nat
  title : String
  description : Option String
  priority : Int
  ownerUuid : Option Nat
  profilesImpacted : List String
  raci : Option RaciInput
  deriving DecidableEq, Repr

/-- The per-row `INSERT INTO task_raci` loop.  Each insert violates the
`(task_id, user_uuid)` primary key — throwing the SQL error — when the
pair is already present.  Returns the error (if any), the state reached,
and the trace of issued writes. -/
def insertTaskRacis (taskId : Nat) :
    DB → List (RaciLetter × Nat) → Option Err × DB × List TraceEntry
  | db, [] => (none, db, [])
  | db, (l, u) :: rest =>
    if db.taskRaci.any (fun r => r.taskId = taskId ∧ r.userUuid = u) then
      (some (.dbError "duplicate key in task_raci"), db, [])
    else
      ((insertTaskRacis taskId
          { db with taskRaci := db.taskRaci ++ [⟨taskId, u, l⟩] } rest).1,
       (insertTaskRacis taskId
          { db with taskRaci := db.taskRaci ++ [⟨taskId, u, l⟩] } rest).2.1,
       TraceEntry.dbWrite "task_raci" ::
         (insertTaskRacis taskId
            { db with taskRaci := db.taskRaci ++ [⟨taskId, u, l⟩] } rest).2.2)

/-- The batch `INSERT INTO task_profile`: every row must reference an
existing profile code (foreign key) and a fresh `(task_id, profile_code)`
pair (primary key); any violation throws and voids the whole statement. -/
def insertTaskProfiles (taskId : Nat) : DB → List String → Option Err × DB
  | db, [] => (none, db)
  | db, code :: rest =>
    if ¬ db.profiles.contains code then
      (some (.dbError "task_profile foreign key violation"), db)
    else if db.taskProfiles.any (fun p => p.taskId = taskId ∧ p.profileCode = code) then
      (some (.dbError "duplicate key in task_profile"), db)
    else
      insertTaskProfiles taskId
        { db with taskProfiles := db.taskProfiles ++ [⟨taskId, code⟩] } rest

/-- The task row the service constructs: progress forced to `0`, both
timestamps `now`, no planned dates at creation. -/
def newTaskRow (input : CreateTaskInput) (creatorUuid newId now : Nat) : Task :=
  { id := newId, phaseCode := input.phaseCode, pageId := input.pageId,
    title := input.title, description := input.description,
    priority := input.priority, ownerUuid := input.ownerUuid,
    progressCenti := 0, createdBy := creatorUuid, createdAt := now,
    updatedAt := now, plannedStart := none, plannedEnd := none }

/-- Steps of `createTask` after the id read-back: the per-row RACI
inserts, the profile batch insert, the enriched-payload reads (pure), the
`task created` emission. -/
def createTaskInsertRest (input : CreateTaskInput) (taskId : Nat) (db1 : DB) :
    TxResult Nat × DB × List TraceEntry :=
  match insertTaskRacis taskId db1 (raciPairsOpt input.raci) with
  | (some e, dbX, tr2) => (.thrown e, dbX, TraceEntry.dbWrite "task" :: tr2)
  | (none, db2, tr2) =>
    if input.profilesImpacted.isEmpty then
      (.ok (.success taskId), db2,
       TraceEntry.dbWrite "task" :: tr2 ++ [.emit (.taskCreated taskId)])
    else
      match insertTaskProfiles taskId db2 input.profilesImpacted with
      | (some e, dbX) => (.thrown e, dbX, TraceEntry.dbWrite "task" :: tr2)
      | (none, db3) =>
        (.ok (.success taskId), db3,
         TraceEntry.dbWrite "task" :: tr2 ++
           [.dbWrite "task_profile", .emit (.taskCreated taskId)])

/-- Step of `createTask` reading the generated id back by
`(title, created_by, created_at)`. -/
def createTaskReadBack (input : CreateTaskInput) (task : Task) (db1 : DB) :
    TxResult Nat × DB × List TraceEntry :=
  match firstByCreatedAtDesc (fun t => t.createdAt)
      (db1.tasks.filter fun t =>
        t.title = task.title ∧ t.createdBy = task.createdBy ∧
        t.createdAt = task.createdAt) with
  | none => (.thrown (.dbError "undefined has no property id"), db1,
             [TraceEntry.dbWrite "task"])
  | some savedTaskRecord => createTaskInsertRest input savedTaskRecord.id db1

/-- Step of `createTask` issuing `INSERT INTO task` (primary-key clash
throws). -/
def createTaskInsertTask (input : CreateTaskInput) (task : Task) (db0 : DB) :
    TxResult Nat × DB × List TraceEntry :=
  if db0.tasks.any (fun t => t.id = task.id) then
    (.thrown (.dbError "duplicate key in task"), db0, [])
  else
    createTaskReadBack input task { db0 with tasks := db0.tasks ++ [task] }

/-- The `createTask` transaction callback: build and validate the entity
(progress forced to `0`, both timestamps `now`), insert it, read the id
back by `(title, created_by, created_at)`, insert the RACI rows, insert
the profile rows, read the RACI map back, emit `task created`, return. -/
def createTaskBody (input : CreateTaskInput) (creatorUuid newId now : Nat)
    (db0 : DB) : TxResult Nat × DB × List TraceEntry :=
  match Task.create (newTaskRow input creatorUuid newId now) with
  | .failure e => (.ok (.failure e), db0, [])
  | .success task => createTaskInsertTask input task db0

/-- `TaskService.createTask`: verify every impacted profile code exists
(failing on the first unknown one), then run the transaction callback. -/
def createTask (db : DB) (input : CreateTaskInput) (creatorUuid newId now : Nat) :
    Result Nat Err × DB × List TraceEntry :=
  match input.profilesImpacted.find? (fun code => ¬ db.profiles.contains code) with
  | some code => (.failure (.profileNotFound code), db, [])
  | none => runTransaction db (createTaskBody input creatorUuid newId now)

/-! ## `TaskService.updateTask` -/

/-- Sequencing of short-circuiting steps (`flatMap` on `Result`). -/
def Result.bind {α β ε : Type} : Result α ε → (α → Result β ε) → Result β ε
  | .success v, f => f v
  | .failure e, _ => .failure e

/-- Lift an in-place entity mutation (`entity × Result<void>`) into the
short-circuit chain: keep the mutated entity on success, surface the
error on failure. -/
def liftMut (p : Task × Result Unit Err) : Result Task Err :=
  match p.2 with
  | .success _ => .success p.1
  | .failure e => .failure e

/-- Apply a step only when the optional input field was supplied. -/
def applyOpt {β : Type} (v? : Option β) (f : Task → β → Result Task Err)
    (t : Task) : Result Task Err :=
  match v? with
  | none => .success t
  | some v => f t v

/-- `UpdateTaskInput` (no `progress` field exists on it). -/
structure UpdateTaskInput where
  phaseCode : Option String
  pageId : Option Nat
  title : Option String
  description : Option String
  priority : Option Int
  ownerUuid : Option Nat
  plannedStart : Option Nat
  plannedEnd : Option Nat
  profilesImpacted : Option (List String)
  raci : Option RaciInput
  deriving DecidableEq, Repr

/-- The field-update section of `updateTask`: title, description,
priority, phase (guarded by `canChangePhase` when the code actually
changes), owner, planned dates — each through the entity's validating
setter, the first failure aborting the whole update before any
persistence.  The supplied `pageId` is never applied by the source. -/
def applyUpdates (db : DB) (taskId : Nat) (input : UpdateTaskInput)
    (userUuid : Nat) (role : Role) (now : Nat) (task0 : Task) :
    Result Task Err :=
  (applyOpt input.title (fun t v => liftMut (t.updateTitle v now)) task0).bind fun t1 =>
  (applyOpt input.description
    (fun t v => liftMut (t.updateDescription (some v) now)) t1).bind fun t2 =>
  (applyOpt input.priority (fun t v => liftMut (t.updatePriority v now)) t2).bind fun t3 =>
  (applyOpt input.phaseCode (fun t code =>
    if code = t.phaseCode then .success t
    else
      match canChangePhase db taskId userUuid role with
      | .failure e => .failure e
      | .success b =>
        if ¬ b then .failure (.forbidden "needs to be owner, CP or RF")
        else liftMut (t.updatePhase code now)) t3).bind fun t4 =>
  (applyOpt input.ownerUuid
    (fun t v => liftMut (t.updateOwner (some v) now)) t4).bind fun t5 =>
  if input.plannedStart.isSome ∨ input.plannedEnd.isSome then
    liftMut (t5.updatePlannedDates input.plannedStart input.plannedEnd now)
  else .success t5

/-- The RACI replacement step of the `updateTask` transaction: delete all
rows of the task, then re-insert the supplied map row by row. -/
def updateRaciStep (taskId : Nat) (input : Option RaciInput) (db : DB) :
    Option Err × DB × List TraceEntry :=
  match input with
  | none => (none, db, [])
  | some x =>
    let db2 : DB := { db with taskRaci := db.taskRaci.filter (fun r => ¬ r.taskId = taskId) }
    let step := insertTaskRacis taskId db2 x.pairs
    (step.1, step.2.1, TraceEntry.dbWrite "task_raci" :: step.2.2)

/-- The profile replacement step: delete all associations of the task,
then batch-insert the supplied codes when the list is non-empty. -/
def updateProfilesStep (taskId : Nat) (input : Option (List String)) (db : DB) :
    Option Err × DB × List TraceEntry :=
  match input with
  | none => (none, db, [])
  | some codes =>
    let db2 : DB :=
      { db with taskProfiles := db.taskProfiles.filter (fun p => ¬ p.taskId = taskId) }
    if codes.isEmpty then (none, db2, [.dbWrite "task_profile"])
    else
      match insertTaskProfiles taskId db2 codes with
      | (some e, dbX) => (some e, dbX, [.dbWrite "task_profile"])
      | (none, db3) => (none, db3, [.dbWrite "task_profile", .dbWrite "task_profile"])

/-- Steps of the `updateTask` transaction after the task-row `UPDATE`:
replace the RACI set and the profile set when supplied, read the enriched
payload back (pure), emit `task updated`, return. -/
def updateTaskFinish (taskId : Nat) (input : UpdateTaskInput) (db1 : DB) :
    TxResult Unit × DB × List TraceEntry :=
  match updateRaciStep taskId input.raci db1 with
  | (some e, dbX, tr2) => (.thrown e, dbX, TraceEntry.dbWrite "task" :: tr2)
  | (none, db2, tr2) =>
    match updateProfilesStep taskId input.profilesImpacted db2 with
    | (some e, dbX, tr3) => (.thrown e, dbX, TraceEntry.dbWrite "task" :: tr2 ++ tr3)
    | (none, db3, tr3) =>
      (.ok (.success ()), db3,
       TraceEntry.dbWrite "task" :: tr2 ++ tr3 ++ [.emit (.taskUpdated taskId)])

/-- The task-row `UPDATE ... WHERE id = taskId` of `updateTask`: writes
the entity's fields — in particular its untouched `progress` — and stamps
`updated_at`. -/
def updateTaskRow (taskId : Nat) (task : Task) (now : Nat) (db : DB) : DB :=
  { db with
    tasks := db.tasks.map fun t =>
      if t.id = taskId then
        { t with phaseCode := task.phaseCode, pageId := task.pageId,
                 title := task.title, description := task.description,
                 priority := task.priority, ownerUuid := task.ownerUuid,
                 progressCenti := task.progressCenti, updatedAt := now,
                 plannedStart := task.plannedStart, plannedEnd := task.plannedEnd }
      else t }

/-- The `updateTask` transaction callback. -/
def updateTaskBody (taskId : Nat) (task : Task) (input : UpdateTaskInput)
    (now : Nat) (db : DB) : TxResult Unit × DB × List TraceEntry :=
  updateTaskFinish taskId input (updateTaskRow taskId task now db)

/-- `TaskService.updateTask`: load, authorize, mutate the entity through
its validating setters, then persist everything in one transaction and
emit after the writes. -/
def updateTask (db : DB) (taskId : Nat) (input : UpdateTaskInput)
    (userUuid : Nat) (role : Role) (now : Nat) :
    Result Unit Err × DB × List TraceEntry :=
  match findTaskById db taskId with
  | .failure e => (.failure e, db, [])
  | .success task0 =>
    match canModifyTask db taskId userUuid role with
    | .failure e => (.failure e, db, [])
    | .success canModify =>
      if ¬ canModify then
        (.failure (.forbidden "needs R or A or be owner/CP/RF"), db, [])
      else
        match applyUpdates db taskId input userUuid role now task0 with
        | .failure e => (.failure e, db, [])
        | .success task => runTransaction db (updateTaskBody taskId task input now)

/-! ## `TaskService.createSubTask` -/

/-- The batch `INSERT INTO subtask_raci` used for the RACI copy:
`(subtask_id, user_uuid)` primary-key violations throw. -/
def insertSubTaskRacis (subtaskId : Nat) :
    DB → List (Nat × RaciLetter) → Option Err × DB
  | db, [] => (none, db)
  | db, (u, l) :: rest =>
    if db.subtaskRaci.any (fun r => r.subtaskId = subtaskId ∧ r.userUuid = u) then
      (some (.dbError "duplicate key in subtask_raci"), db)
    else
      insertSubTaskRacis subtaskId
        { db with subtaskRaci := db.subtaskRaci ++ [⟨subtaskId, u, l⟩] } rest

/-- Steps of `createSubTask` after the id read-back: read the parent's
RACI rows and, when there are any, batch-insert one copy per row for the
subtask; then emit `subtask updated`. -/
def createSubTaskCopyRacis (taskId subtaskId : Nat) (db1 : DB) :
    TxResult Nat × DB × List TraceEntry :=
  if (db1.taskRaci.filter (fun r => r.taskId = taskId)).isEmpty then
    (.ok (.success subtaskId), db1,
     [TraceEntry.dbWrite "subtask", .emit (.subTaskUpdated subtaskId)])
  else
    match insertSubTaskRacis subtaskId db1
        ((db1.taskRaci.filter (fun r => r.taskId = taskId)).map
          fun r => (r.userUuid, r.letter)) with
    | (some e, dbX) => (.thrown e, dbX, [TraceEntry.dbWrite "subtask"])
    | (none, db2) =>
      (.ok (.success subtaskId), db2,
       [TraceEntry.dbWrite "subtask", .dbWrite "subtask_raci",
        .emit (.subTaskUpdated subtaskId)])

/-- Step of `createSubTask` reading the generated id back by
`(title, task_id, created_by)`. -/
def createSubTaskReadBack (taskId : Nat) (sub : SubTask) (db1 : DB) :
    TxResult Nat × DB × List TraceEntry :=
  match firstByCreatedAtDesc (fun s => s.createdAt)
      (db1.subtasks.filter fun s =>
        s.title = sub.title ∧ s.taskId = sub.taskId ∧
        s.createdBy = sub.createdBy) with
  | none => (.thrown (.dbError "undefined has no property id"), db1,
             [TraceEntry.dbWrite "subtask"])
  | some savedSubtaskRecord =>
    createSubTaskCopyRacis taskId savedSubtaskRecord.id db1

/-- The `createSubTask` transaction callback: insert the subtask (which
fires the `subtask_progress` trigger on the parent), read the id back by
`(title, task_id, created_by)`, read the parent's RACI rows and insert
one copy of each for the subtask, emit `subtask updated`, return. -/
def createSubTaskBody (taskId : Nat) (sub : SubTask) (now : Nat) (db : DB) :
    TxResult Nat × DB × List TraceEntry :=
  if db.subtasks.any (fun s => s.id = sub.id) then
    (.thrown (.dbError "duplicate key in subtask"), db, [])
  else
    createSubTaskReadBack taskId sub
      (fn_task_progress { db with subtasks := db.subtasks ++ [sub] } sub.taskId now)

/-- `TaskService.createSubTask`: parent existence check (any load failure
masked as not-found), authorization against the parent, entity
construction (`completed` defaulting through `done || false`), then the
transaction callback. -/
def createSubTask (db : DB) (taskId : Nat) (title : String) (done : Bool)
    (userUuid : Nat) (role : Role) (newId now : Nat) :
    Result Nat Err × DB × List TraceEntry :=
  match findTaskById db taskId with
  | .failure _ => (.failure (.taskNotFound taskId), db, [])
  | .success _ =>
    match canModifyTask db taskId userUuid role with
    | .failure e => (.failure e, db, [])
    | .success canModify =>
      if ¬ canModify then
        (.failure (.forbidden "needs R or A or be owner/CP/RF"), db, [])
      else
        let sub0 : SubTask :=
          { id := newId, taskId := taskId, title := title, description := none,
            done := done, createdBy := userUuid, createdAt := now, updatedAt := now }
        match SubTask.create sub0 with
        | .failure e => (.failure e, db, [])
        | .success sub => runTransaction db (createSubTaskBody taskId sub now)

/-! ## Trace observables -/

/-- Whether a trace contains a broker emission. -/
def hasEmit (tr : List TraceEntry) : Bool :=
  tr.any fun e => match e with | .emit _ => true | _ => false

/-- Whether a trace entry is an SQL write. -/
def TraceEntry.isWrite : TraceEntry → Bool
  | .dbWrite _ => true
  | _ => false

/-- Auxiliary scan: `seen` records whether a commit has been passed;
every emission must come after it. -/
def noEmitBeforeCommitAux : Bool → List TraceEntry → Bool
  | _, [] => true
  | _, .commit :: rest => noEmitBeforeCommitAux true rest
  | seen, .emit _ :: rest => seen && noEmitBeforeCommitAux seen rest
  | seen, _ :: rest => noEmitBeforeCommitAux seen rest

/-- The ordering property asserted by the specification for one trace:
every realtime emission occurs strictly after the transaction commit. -/
def emitsStrictlyAfterCommit (tr : List TraceEntry) : Bool :=
  noEmitBeforeCommitAux false tr

/-- Auxiliary scan: once an emission has been seen, no further SQL write
may appear. -/
def noWriteAfterEmitAux : Bool → List TraceEntry → Bool
  | _, [] => true
  | seen, .dbWrite _ :: rest => !seen && noWriteAfterEmitAux seen rest
  | _, .emit _ :: rest => noWriteAfterEmitAux true rest
  | seen, _ :: rest => noWriteAfterEmitAux seen rest

/-- All SQL writes of the trace precede all of its emissions. -/
def writesPrecedeEmits (tr : List TraceEntry) : Bool :=
  noWriteAfterEmitAux false tr

/-! ## Sample data for concrete runs -/

/-- A valid task row owned by user 7 (phase `D`, priority 2). -/
def sampleTask : Task :=
  { id := 1, phaseCode := "D", pageId := none, title := "t", description := none,
    priority := 2, ownerUuid := some 7, progressCenti := 0, createdBy := 7,
    createdAt := 0, updatedAt := 0, plannedStart := none, plannedEnd := none }

/-- A subtask of task 1 with the given id and completion flag. -/
def mkSub (i : Nat) (d : Bool) : SubTask :=
  { id := i, taskId := 1, title := "s", description := none, done := d,
    createdBy := 7, createdAt := 1, updatedAt := 1 }

/-- Task 1 with three incomplete subtasks. -/
def dbThreeSubs : DB :=
  { tasks := [sampleTask], subtasks := [mkSub 1 false, mkSub 2 false, mkSub 3 false],
    taskRaci := [], subtaskRaci := [], taskProfiles := [], profiles := ["TEC"] }

/-- Task 1 at stored progress 100.00 (updated at time 50) whose single
subtask is already completed. -/
def dbAllDone : DB :=
  { tasks := [{ sampleTask with progressCenti := 10000, updatedAt := 50 }],
    subtasks := [mkSub 1 true],
    taskRaci := [], subtaskRaci := [], taskProfiles := [], profiles := ["TEC"] }

/-- An empty database knowing the profile code `TEC`. -/
def dbEmpty : DB :=
  { tasks := [], subtasks := [], taskRaci := [], subtaskRaci := [],
    taskProfiles := [], profiles := ["TEC"] }

/-- A well-formed creation input: phase `D`, priority 2, profile `TEC`,
RACI `R = [7]`. -/
def sampleCreateInput : CreateTaskInput :=
  { phaseCode := "D", pageId := none, title := "t", description := none,
    priority := 2, ownerUuid := some 7, profilesImpacted := ["TEC"],
    raci := some { r := [7], a := [], c := [], i := [] } }

/-- The same creation input with user 7 listed under both `R` and `A`,
making the second `task_raci` insert violate the primary key. -/
def sampleDupRaciInput : CreateTaskInput :=
  { sampleCreateInput with raci := some { r := [7], a := [7], c := [], i := [] } }

/-- Task 1 owned by user 7, with task-level RACI rows `C` for user 5 and
`R` for user 6, and one matching subtask-level RACI row. -/
def dbAuth : DB :=
  { tasks := [sampleTask], subtasks := [mkSub 1 false],
    taskRaci := [⟨1, 5, .C⟩, ⟨1, 6, .R⟩], subtaskRaci := [⟨1, 5, .C⟩, ⟨1, 6, .R⟩],
    taskProfiles := [], profiles := ["TEC"] }

/-! ## General list helpers -/

/-- A filter by a key no element satisfies is empty. -/
lemma filter_eq_nil_of_no_key {α : Type} (key : α → Prop) [DecidablePred key]
    (l : List α) (h : ∀ x ∈ l, ¬ key x) :
    l.filter (fun x => decide (key x)) = [] := by
  induction l with
  | nil => rfl
  | cons a l ih =>
    have ha : ¬ key a := h a (List.mem_cons_self a l)
    simp only [List.filter_cons, decide_eq_true_eq]
    rw [if_neg (by simpa using ha)]
    exact ih fun x hx => h x (List.mem_cons_of_mem a hx)

/-- Updating the (by pairwise-uniqueness unique) element that satisfies a
key and filtering by that key yields exactly the updated element. -/
lemma filter_update_of_mem {α : Type} (key : α → Prop) [DecidablePred key]
    (upd : α → α) (target : α)
    (hupd : ∀ x, key x → upd x = target) (htarget : key target) :
    ∀ l : List α, l.Pairwise (fun a b => ¬ (key a ∧ key b)) →
      (∃ x ∈ l, key x) →
      (l.map fun x => if key x then upd x else x).filter
        (fun x => decide (key x)) = [target]
  | [], _, hmem => absurd hmem (by simp)
  | x :: xs, hpw, hmem => by
    rcases List.pairwise_cons.mp hpw with ⟨hx, hxs⟩
    by_cases hkey : key x
    · have htail : ∀ r ∈ xs, ¬ key r := fun r hr hk => hx r hr ⟨hkey, hk⟩
      have hnil : (xs.map fun y => if key y then upd y else y).filter
          (fun y => decide (key y)) = [] := by
        refine filter_eq_nil_of_no_key key _ ?_
        intro y hy
        rcases List.mem_map.mp hy with ⟨r, hr, rfl⟩
        by_cases hkr : key r
        · exact absurd hkr (htail r hr)
        · simpa [if_neg hkr] using htail r hr
      simp only [List.map_cons, List.filter_cons, if_pos hkey, hupd x hkey,
        decide_eq_true_eq]
      rw [if_pos htarget, hnil]
    · have hmem2 : ∃ r ∈ xs, key r := by
        rcases hmem with ⟨r, hr, hk⟩
        rcases List.mem_cons.mp hr with rfl | hr2
        · exact absurd hk hkey
        · exact ⟨r, hr2, hk⟩
      simp only [List.map_cons, List.filter_cons, if_neg hkey, decide_eq_true_eq]
      exact filter_update_of_mem key upd target hupd htarget xs hxs hmem2

/-! ## Frame and trace lemmas about the transaction steps -/

/-- The `task_raci` insert loop only issues SQL writes. -/
lemma insertTaskRacis_allWrites (taskId : Nat) :
    ∀ (db : DB) (pairs : List (RaciLetter × Nat)),
      (insertTaskRacis taskId db pairs).2.2.all TraceEntry.isWrite = true
  | _, [] => rfl
  | db, (l, u) :: rest => by
    unfold insertTaskRacis
    split
    · rfl
    · simp only [List.all_cons, Bool.and_eq_true]
      exact ⟨rfl, insertTaskRacis_allWrites taskId _ rest⟩

/-- The `task_raci` insert loop touches no table other than `task_raci`. -/
lemma insertTaskRacis_frame (taskId : Nat) :
    ∀ (db : DB) (pairs : List (RaciLetter × Nat)),
      (insertTaskRacis taskId db pairs).2.1.tasks = db.tasks ∧
      (insertTaskRacis taskId db pairs).2.1.subtasks = db.subtasks ∧
      (insertTaskRacis taskId db pairs).2.1.subtaskRaci = db.subtaskRaci ∧
      (insertTaskRacis taskId db pairs).2.1.taskProfiles = db.taskProfiles ∧
      (insertTaskRacis taskId db pairs).2.1.profiles = db.profiles
  | _, [] => ⟨rfl, rfl, rfl, rfl, rfl⟩
  | db, (l, u) :: rest => by
    unfold insertTaskRacis
    split
    · exact ⟨rfl, rfl, rfl, rfl, rfl⟩
    · exact insertTaskRacis_frame taskId _ rest

/-- The `task_profile` batch insert touches no table but `task_profile`. -/
lemma insertTaskProfiles_frame (taskId : Nat) :
    ∀ (db : DB) (codes : List String),
      (insertTaskProfiles taskId db codes).2.tasks = db.tasks ∧
      (insertTaskProfiles taskId db codes).2.subtasks = db.subtasks ∧
      (insertTaskProfiles taskId db codes).2.taskRaci = db.taskRaci ∧
      (insertTaskProfiles taskId db codes).2.subtaskRaci = db.subtaskRaci ∧
      (insertTaskProfiles taskId db codes).2.profiles = db.profiles
  | _, [] => ⟨rfl, rfl, rfl, rfl, rfl⟩
  | db, code :: rest => by
    unfold insertTaskProfiles
    split
    · exact ⟨rfl, rfl, rfl, rfl, rfl⟩
    · split
      · exact ⟨rfl, rfl, rfl, rfl, rfl⟩
      · exact insertTaskProfiles_frame taskId _ rest

/-- The `subtask_raci` batch insert touches no table but `subtask_raci`. -/
lemma insertSubTaskRacis_frame (subtaskId : Nat) :
    ∀ (db : DB) (pairs : List (Nat × RaciLetter)),
      (insertSubTaskRacis subtaskId db pairs).2.tasks = db.tasks ∧
      (insertSubTaskRacis subtaskId db pairs).2.subtasks = db.subtasks ∧
      (insertSubTaskRacis subtaskId db pairs).2.taskRaci = db.taskRaci ∧
      (insertSubTaskRacis subtaskId db pairs).2.taskProfiles = db.taskProfiles ∧
      (insertSubTaskRacis subtaskId db pairs).2.profiles = db.profiles
  | _, [] => ⟨rfl, rfl, rfl, rfl, rfl⟩
  | db, (u, l) :: rest => by
    unfold insertSubTaskRacis
    split
    · exact ⟨rfl, rfl, rfl, rfl, rfl⟩
    · exact insertSubTaskRacis_frame subtaskId _ rest

/-- On success, the `subtask_raci` batch insert appends exactly one row
per supplied `(user, letter)` pair, in order. -/
lemma insertSubTaskRacis_success (subtaskId : Nat) :
    ∀ (db db2 : DB) (pairs : List (Nat × RaciLetter)),
      insertSubTaskRacis subtaskId db pairs = (none, db2) →
      db2.subtaskRaci =
        db.subtaskRaci ++ pairs.map fun p => ⟨subtaskId, p.1, p.2⟩
  | db, db2, [], h => by
    cases h
    simp
  | db, db2, (u, l) :: rest, h => by
    unfold insertSubTaskRacis at h
    split at h
    · cases h
    · have := insertSubTaskRacis_success subtaskId _ db2 rest h
      simpa using this

/-- A trace of writes only contains no emission. -/
lemma hasEmit_of_allWrites (tr : List TraceEntry)
    (h : tr.all TraceEntry.isWrite = true) : hasEmit tr = false := by
  rw [hasEmit, List.any_eq_false]
  intro x hx
  have hw := List.all_eq_true.mp h x hx
  cases x <;> simp_all [TraceEntry.isWrite]

/-- `hasEmit` distributes over append. -/
lemma hasEmit_append (a b : List TraceEntry) :
    hasEmit (a ++ b) = (hasEmit a || hasEmit b) := by
  simp [hasEmit, List.any_append]

/-- A leading block of writes is transparent to the write-before-emit
scan. -/
lemma nwae_skip_writes :
    ∀ (w rest : List TraceEntry), w.all TraceEntry.isWrite = true →
      noWriteAfterEmitAux false (w ++ rest) = noWriteAfterEmitAux false rest
  | [], _, _ => rfl
  | x :: w, rest, h => by
    cases x <;> simp_all [TraceEntry.isWrite, noWriteAfterEmitAux, nwae_skip_writes w rest]

/-- A leading block of writes is transparent to the emit-after-commit
scan. -/
lemma nebc_skip_writes :
    ∀ (w rest : List TraceEntry), w.all TraceEntry.isWrite = true →
      noEmitBeforeCommitAux false (w ++ rest) = noEmitBeforeCommitAux false rest
  | [], _, _ => rfl
  | x :: w, rest, h => by
    cases x <;> simp_all [TraceEntry.isWrite, noEmitBeforeCommitAux, nebc_skip_writes w rest]

/-- Shape of every committed trace of the embedded use cases: some SQL
writes, then the emission(s), then the commit.  Such a trace has an
emission, ends in the commit, has all writes before all emissions — and
refutes the emit-strictly-after-commit ordering. -/
lemma trace_shape_ok (w : List TraceEntry) (e : Event)
    (hW : w.all TraceEntry.isWrite = true) :
    hasEmit (w ++ [TraceEntry.emit e, TraceEntry.commit]) = true ∧
    (w ++ [TraceEntry.emit e, TraceEntry.commit]).getLast? = some TraceEntry.commit ∧
    writesPrecedeEmits (w ++ [TraceEntry.emit e, TraceEntry.commit]) = true ∧
    emitsStrictlyAfterCommit (w ++ [TraceEntry.emit e, TraceEntry.commit]) = false := by
  refine ⟨?_, ?_, ?_, ?_⟩
  · simp [hasEmit_append, hasEmit]
  · have hsplit : w ++ [TraceEntry.emit e, TraceEntry.commit] =
        (w ++ [TraceEntry.emit e]) ++ [TraceEntry.commit] := by
      simp
    rw [hsplit, List.getLast?_concat]
  · unfold writesPrecedeEmits
    rw [nwae_skip_writes w _ hW]
    rfl
  · unfold emitsStrictlyAfterCommit
    rw [nebc_skip_writes w _ hW]
    rfl

/-! ## Claim theorems -/

/-- C10: in this core `isTaskLocked` returns `success (locked := false)`
for every task and user, so `canModifyTask` never returns the
lock-conflict failure (that branch is unreachable) and its only outcomes
are `success true`, `success false`, or the propagated repository failure
of the task lookup. -/
theorem C10_lock_stub_unreachable_conflict :
    (∀ taskId userUuid : Nat,
      isTaskLocked taskId userUuid = .success { locked := false, lockedBy := none }) ∧
    (∀ (db : DB) (taskId userUuid : Nat) (role : Role),
      canModifyTask db taskId userUuid role = .success true ∨
      canModifyTask db taskId userUuid role = .success false ∨
      ∃ e, findTaskById db taskId = .failure e ∧
           canModifyTask db taskId userUuid role = .failure e) := by
  refine ⟨fun taskId userUuid => rfl, fun db taskId userUuid role => ?_⟩
  by_cases hrole : role = .CP ∨ role = .RF
  · refine Or.inl ?_
    simp [canModifyTask, hrole]
  · cases hf : findTaskById db taskId with
    | failure e =>
      refine Or.inr (Or.inr ⟨e, rfl, ?_⟩)
      simp [canModifyTask, hrole, hf]
    | success task =>
      by_cases howner : task.ownerUuid = some userUuid
      · refine Or.inl ?_
        simp [canModifyTask, hrole, hf, howner]
      · by_cases hperm : ∃ p ∈ findRaciByTaskId db taskId,
            p.1 = userUuid ∧ (p.2 = RaciLetter.R ∨ p.2 = RaciLetter.A)
        · refine Or.inl ?_
          simp [canModifyTask, hrole, hf, howner, isTaskLocked]
          rcases hperm with ⟨⟨u, l⟩, hm, hu, hl⟩
          exact ⟨u, l, hm, hu, fun h => hl.resolve_left h⟩
        · refine Or.inr (Or.inl ?_)
          simp [canModifyTask, hrole, hf, howner, isTaskLocked]
          intro u l hm hu
          exact ⟨fun hl => hperm ⟨(u, l), hm, hu, Or.inl hl⟩,
                 fun hl => hperm ⟨(u, l), hm, hu, Or.inr hl⟩⟩

/-- C6: a user who holds no elevated role, does not own the task, and
whose task-level RACI letters are all `C` or `I` (or who has no
assignment) is denied by `canModifyTask` (`success false`); a user with a
task-level `R` or `A` letter, the owner, or an elevated role is allowed
(`success true`) — no soft lock is ever held, so no conflict occurs. -/
theorem C6_canModifyTask_policy (db : DB) (taskId userUuid : Nat) (role : Role)
    (task : Task) (hfind : findTaskById db taskId = .success task) :
    (¬ (role = .CP ∨ role = .RF) → ¬ task.ownerUuid = some userUuid →
      (∀ r ∈ db.taskRaci, r.taskId = taskId → r.userUuid = userUuid →
        r.letter = RaciLetter.C ∨ r.letter = RaciLetter.I) →
      canModifyTask db taskId userUuid role = .success false) ∧
    (((role = .CP ∨ role = .RF) ∨ task.ownerUuid = some userUuid ∨
      ∃ r ∈ db.taskRaci, r.taskId = taskId ∧ r.userUuid = userUuid ∧
        (r.letter = RaciLetter.R ∨ r.letter = RaciLetter.A)) →
      canModifyTask db taskId userUuid role = .success true) := by
  constructor
  · intro hrole howner hletters
    simp [canModifyTask, hrole, hfind, howner, findRaciByTaskId]
    intro r hr hrt hru
    rcases hletters r hr hrt hru with h | h <;> simp [h]
  · rintro (hrole | howner | ⟨r, hr, hrt, hru, hletter⟩)
    · simp [canModifyTask, hrole]
    · simp [canModifyTask, hfind, howner]
    · by_cases hrole : role = .CP ∨ role = .RF
      · simp [canModifyTask, hrole]
      · by_cases howner : task.ownerUuid = some userUuid
        · simp [canModifyTask, hrole, hfind, howner]
        · simp [canModifyTask, hrole, hfind, howner, findRaciByTaskId, isTaskLocked]
          exact ⟨r, hr, hrt, hru, fun h => hletter.resolve_left h⟩

/-- C6 witness: in `dbAuth`, user 5 (letter `C`, role `DEV`) is denied
and user 6 (letter `R`, role `DEV`) is allowed. -/
theorem C6_canModifyTask_policy_witness :
    canModifyTask dbAuth 1 5 .DEV = .success false ∧
    canModifyTask dbAuth 1 6 .DEV = .success true :=
  ⟨(C6_canModifyTask_policy dbAuth 1 5 .DEV sampleTask (by decide)).1
      (by decide) (by decide) (by decide),
   (C6_canModifyTask_policy dbAuth 1 6 .DEV sampleTask (by decide)).2
      (Or.inr (Or.inr ⟨⟨1, 6, .R⟩, by decide, by decide, by decide, Or.inl rfl⟩))⟩

/-- C7: a user holding task-level RACI `R` or `A` who is neither the
owner nor elevated gets `success false` from `canChangePhase` while
`canModifyTask` answers `success true` for the same task and user. -/
theorem C7_canChangePhase_narrower (db : DB) (taskId userUuid : Nat)
    (role : Role) (task : Task)
    (hrole : ¬ (role = .CP ∨ role = .RF))
    (hfind : findTaskById db taskId = .success task)
    (howner : ¬ task.ownerUuid = some userUuid)
    (hraci : ∃ r ∈ db.taskRaci, r.taskId = taskId ∧ r.userUuid = userUuid ∧
      (r.letter = RaciLetter.R ∨ r.letter = RaciLetter.A)) :
    canChangePhase db taskId userUuid role = .success false ∧
    canModifyTask db taskId userUuid role = .success true := by
  constructor
  · simp [canChangePhase, hrole, hfind, howner]
  · rcases hraci with ⟨r, hr, hrt, hru, hletter⟩
    simp [canModifyTask, hrole, hfind, howner, findRaciByTaskId, isTaskLocked]
    exact ⟨r, hr, hrt, hru, fun h => hletter.resolve_left h⟩

/-- C7 witness: user 6 holds `R` on task 1 of `dbAuth`, is not the owner
and has role `DEV`: phase change denied, modification allowed. -/
theorem C7_canChangePhase_narrower_witness :
    canChangePhase dbAuth 1 6 .DEV = .success false ∧
    canModifyTask dbAuth 1 6 .DEV = .success true :=
  C7_canChangePhase_narrower dbAuth 1 6 .DEV sampleTask (by decide) (by decide)
    (by decide) ⟨⟨1, 6, .R⟩, by decide, by decide, by decide, Or.inl rfl⟩

/-- C8: the `Task` entity mutators re-validate the new value (priority in
1..5, phase among the 7 codes, start ≤ end when both planned dates are
given, non-blank title, progress in 0..100), leave the entity unchanged
and report a validation failure when the value would break an invariant,
and stamp `updatedAt` with the current time on every success. -/
theorem C8_task_mutators_validate (t : Task) (now : Nat) :
    (∀ title : String, isBlank title = false →
      t.updateTitle title now = ({ t with title := title, updatedAt := now }, .success ())) ∧
    (∀ title : String, isBlank title = true →
      t.updateTitle title now = (t, .failure (.validation "Task title is required"))) ∧
    (∀ p : Int, 1 ≤ p ∧ p ≤ 5 →
      t.updatePriority p now = ({ t with priority := p, updatedAt := now }, .success ())) ∧
    (∀ p : Int, p < 1 ∨ p > 5 →
      t.updatePriority p now = (t, .failure (.validation "Invalid priority value"))) ∧
    (∀ code : String, validPhaseCodes.contains code = true →
      t.updatePhase code now = ({ t with phaseCode := code, updatedAt := now }, .success ())) ∧
    (∀ code : String, ¬ validPhaseCodes.contains code = true →
      t.updatePhase code now = (t, .failure (.validation "Invalid phase code"))) ∧
    (∀ s e : Nat, s ≤ e →
      t.updatePlannedDates (some s) (some e) now =
        ({ t with plannedStart := some s, plannedEnd := some e, updatedAt := now },
         .success ())) ∧
    (∀ s e : Nat, s > e →
      t.updatePlannedDates (some s) (some e) now =
        (t, .failure (.validation "Planned start date must be before planned end date"))) ∧
    (∀ c : Int, 0 ≤ c ∧ c ≤ 10000 →
      t.updateProgress c now =
        ({ t with progressCenti := c.toNat, updatedAt := now }, .success ())) ∧
    (∀ c : Int, c < 0 ∨ c > 10000 →
      t.updateProgress c now =
        (t, .failure (.validation "Progress must be between 0 and 100"))) := by
  refine ⟨?_, ?_, ?_, ?_, ?_, ?_, ?_, ?_, ?_, ?_⟩
  · intro title h; simp [Task.updateTitle, h]
  · intro title h; simp [Task.updateTitle, h]
  · intro p hp
    have hc : ¬ (p < 1 ∨ p > 5) := by omega
    simp [Task.updatePriority, hc]
  · intro p hp
    simp [Task.updatePriority, hp]
  · intro code h; simp [Task.updatePhase, h]; simpa using h
  · intro code h; simp [Task.updatePhase, h]; simpa using h
  · intro s e h
    have hc : badDateOrder (some s) (some e) = false := by
      simp [badDateOrder]; omega
    simp [Task.updatePlannedDates, hc]
  · intro s e h
    have hc : badDateOrder (some s) (some e) = true := by
      simp [badDateOrder]; omega
    simp [Task.updatePlannedDates, hc]
  · intro c hc
    have h : ¬ (c < 0 ∨ c > 10000) := by omega
    simp [Task.updateProgress, h]
  · intro c hc
    simp [Task.updateProgress, hc]

/-- C8 witness: on the sample task, a valid title update succeeds with a
fresh timestamp while an out-of-range priority is refused unchanged. -/
theorem C8_task_mutators_validate_witness :
    sampleTask.updateTitle "u" 9 =
      ({ sampleTask with title := "u", updatedAt := 9 }, .success ()) ∧
    sampleTask.updatePriority 9 9 =
      (sampleTask, .failure (.validation "Invalid priority value")) :=
  ⟨(C8_task_mutators_validate sampleTask 9).1 "u" (by decide),
   (C8_task_mutators_validate sampleTask 9).2.2.2.1 9 (by decide)⟩

/-- C4: assigning a RACI letter to an `(entity, user)` pair that already
has one replaces the letter in place instead of adding a second row, for
both the task-level and the subtask-level repositories; under the
primary-key uniqueness invariant a subsequent read of the pair returns
exactly the one new letter. -/
theorem C4_raci_upsert_replaces (db : DB) :
    (∀ (taskId userUuid : Nat) (letter : RaciLetter),
      db.taskRaci.Pairwise
        (fun r1 r2 => ¬ (r1.taskId = r2.taskId ∧ r1.userUuid = r2.userUuid)) →
      (saveTaskRaci db taskId userUuid letter).taskRaci.filter
          (fun r => r.taskId = taskId ∧ r.userUuid = userUuid) =
        [{ taskId := taskId, userUuid := userUuid, letter := letter }]) ∧
    (∀ (subtaskId userUuid : Nat) (letter : RaciLetter),
      db.subtaskRaci.Pairwise
        (fun r1 r2 => ¬ (r1.subtaskId = r2.subtaskId ∧ r1.userUuid = r2.userUuid)) →
      (saveSubTaskRaci db subtaskId userUuid letter).subtaskRaci.filter
          (fun r => r.subtaskId = subtaskId ∧ r.userUuid = userUuid) =
        [{ subtaskId := subtaskId, userUuid := userUuid, letter := letter }]) := by
  constructor
  · intro taskId userUuid letter hpw
    unfold saveTaskRaci
    by_cases hex : ∃ r ∈ db.taskRaci, r.taskId = taskId ∧ r.userUuid = userUuid
    · rw [if_pos (by simpa using hex)]
      refine filter_update_of_mem
        (fun r => r.taskId = taskId ∧ r.userUuid = userUuid)
        (fun r => { r with letter := letter })
        { taskId := taskId, userUuid := userUuid, letter := letter }
        (fun x hx => by cases x; simp_all) (by simp) db.taskRaci
        (hpw.imp fun h hk => h ⟨hk.1.1.trans hk.2.1.symm, hk.1.2.trans hk.2.2.symm⟩)
        hex
    · rw [if_neg (by simpa using hex)]
      rw [List.filter_append]
      rw [filter_eq_nil_of_no_key _ _ (fun r hr hk => hex ⟨r, hr, hk⟩)]
      simp
  · intro subtaskId userUuid letter hpw
    unfold saveSubTaskRaci
    by_cases hex : ∃ r ∈ db.subtaskRaci, r.subtaskId = subtaskId ∧ r.userUuid = userUuid
    · rw [if_pos (by simpa using hex)]
      refine filter_update_of_mem
        (fun r => r.subtaskId = subtaskId ∧ r.userUuid = userUuid)
        (fun r => { r with letter := letter })
        { subtaskId := subtaskId, userUuid := userUuid, letter := letter }
        (fun x hx => by cases x; simp_all) (by simp) db.subtaskRaci
        (hpw.imp fun h hk => h ⟨hk.1.1.trans hk.2.1.symm, hk.1.2.trans hk.2.2.symm⟩)
        hex
    · rw [if_neg (by simpa using hex)]
      rw [List.filter_append]
      rw [filter_eq_nil_of_no_key _ _ (fun r hr hk => hex ⟨r, hr, hk⟩)]
      simp

/-- C4 witness: re-assigning letter `A` to the already-assigned pairs
`(task 1, user 5)` and `(subtask 1, user 5)` of `dbAuth` leaves exactly
one row each, holding the new letter. -/
theorem C4_raci_upsert_replaces_witness :
    (saveTaskRaci dbAuth 1 5 .A).taskRaci.filter
        (fun r => r.taskId = 1 ∧ r.userUuid = 5) =
      [{ taskId := 1, userUuid := 5, letter := .A }] ∧
    (saveSubTaskRaci dbAuth 1 5 .A).subtaskRaci.filter
        (fun r => r.subtaskId = 1 ∧ r.userUuid = 5) =
      [{ subtaskId := 1, userUuid := 5, letter := .A }] :=
  ⟨(C4_raci_upsert_replaces dbAuth).1 1 5 .A (by decide),
   (C4_raci_upsert_replaces dbAuth).2 1 5 .A (by decide)⟩

lemma taskCreate_success_eq {t t' : Task} (h : Task.create t = .success t') :
    t' = t := by
  unfold Task.create at h
  split_ifs at h <;> simp_all

lemma subTaskCreate_success_eq {s s' : SubTask} (h : SubTask.create s = .success s') :
    s' = s := by
  unfold SubTask.create at h
  split_ifs at h <;> simp_all

lemma createTaskInsertRest_cases (input : CreateTaskInput) (taskId : Nat) (db1 : DB) :
    (∃ e dbX w, createTaskInsertRest input taskId db1 = (.thrown e, dbX, w) ∧
      w.all TraceEntry.isWrite = true) ∨
    (∃ dbF w, createTaskInsertRest input taskId db1 =
        (.ok (.success taskId), dbF, w ++ [TraceEntry.emit (.taskCreated taskId)]) ∧
      w.all TraceEntry.isWrite = true ∧ dbF.tasks = db1.tasks) := by
  unfold createTaskInsertRest
  rcases hins : insertTaskRacis taskId db1 (raciPairsOpt input.raci) with ⟨err?, db2, tr2⟩
  have hall := insertTaskRacis_allWrites taskId db1 (raciPairsOpt input.raci)
  have hframe := insertTaskRacis_frame taskId db1 (raciPairsOpt input.raci)
  rw [hins] at hall hframe
  cases err? with
  | some e =>
    exact Or.inl ⟨e, db2, _, rfl,
      by simp only [List.all_cons, Bool.and_eq_true]; exact ⟨rfl, by simpa using hall⟩⟩
  | none =>
    dsimp only
    by_cases hemp : input.profilesImpacted.isEmpty = true
    · rw [if_pos hemp]
      refine Or.inr ⟨db2, TraceEntry.dbWrite "task" :: tr2, by simp, ?_, ?_⟩
      · simp only [List.all_cons, Bool.and_eq_true]
        exact ⟨rfl, by simpa using hall⟩
      · simpa using hframe.1
    · rw [if_neg hemp]
      rcases hprof : insertTaskProfiles taskId db2 input.profilesImpacted with ⟨errP, db3⟩
      have hpframe := insertTaskProfiles_frame taskId db2 input.profilesImpacted
      rw [hprof] at hpframe
      cases errP with
      | some e =>
        exact Or.inl ⟨e, db3, _, rfl,
          by simp only [List.all_cons, Bool.and_eq_true]; exact ⟨rfl, by simpa using hall⟩⟩
      | none =>
        dsimp only
        refine Or.inr ⟨db3,
          TraceEntry.dbWrite "task" :: tr2 ++ [TraceEntry.dbWrite "task_profile"],
          by simp, ?_, ?_⟩
        · have h2 : tr2.all TraceEntry.isWrite = true := by simpa using hall
          simp [List.all_append, h2, TraceEntry.isWrite]
        · rw [hpframe.1]
          simpa using hframe.1

lemma createTaskInsertTask_cases (input : CreateTaskInput) (task : Task) (db0 : DB) :
    (∃ e dbX w, createTaskInsertTask input task db0 = (.thrown e, dbX, w) ∧
      w.all TraceEntry.isWrite = true) ∨
    (∃ taskId dbF w, createTaskInsertTask input task db0 =
        (.ok (.success taskId), dbF, w ++ [TraceEntry.emit (.taskCreated taskId)]) ∧
      w.all TraceEntry.isWrite = true ∧ dbF.tasks = db0.tasks ++ [task]) := by
  unfold createTaskInsertTask createTaskReadBack
  by_cases hdup : db0.tasks.any (fun t => t.id = task.id) = true
  · rw [if_pos hdup]
    exact Or.inl ⟨_, _, [], rfl, rfl⟩
  · rw [if_neg hdup]
    split
    · exact Or.inl ⟨_, _, _, rfl, rfl⟩
    · next saved hsaved =>
      rcases createTaskInsertRest_cases input saved.id _ with
        ⟨e, dbX, w, heq, hw⟩ | ⟨dbF, w, heq, hw, htasks⟩
      · exact Or.inl ⟨e, dbX, w, heq, hw⟩
      · refine Or.inr ⟨saved.id, dbF, w, heq, hw, ?_⟩
        rw [htasks]

lemma createTaskBody_cases (input : CreateTaskInput) (creatorUuid newId now : Nat)
    (db0 : DB) :
    (∃ e, createTaskBody input creatorUuid newId now db0 = (.ok (.failure e), db0, [])) ∨
    (∃ e dbX w, createTaskBody input creatorUuid newId now db0 = (.thrown e, dbX, w) ∧
      w.all TraceEntry.isWrite = true) ∨
    (∃ taskId dbF w, createTaskBody input creatorUuid newId now db0 =
        (.ok (.success taskId), dbF, w ++ [TraceEntry.emit (.taskCreated taskId)]) ∧
      w.all TraceEntry.isWrite = true ∧
      dbF.tasks = db0.tasks ++ [newTaskRow input creatorUuid newId now]) := by
  unfold createTaskBody
  cases hc : Task.create (newTaskRow input creatorUuid newId now) with
  | failure e => exact Or.inl ⟨e, rfl⟩
  | success task =>
    have htask := taskCreate_success_eq hc
    subst htask
    rcases createTaskInsertTask_cases input (newTaskRow input creatorUuid newId now) db0 with
      ⟨e, dbX, w, heq, hw⟩ | ⟨taskId, dbF, w, heq, hw, htasks⟩
    · exact Or.inr (Or.inl ⟨e, dbX, w, heq, hw⟩)
    · exact Or.inr (Or.inr ⟨taskId, dbF, w, heq, hw, htasks⟩)

/-- C3: whenever `createTask` fails — in particular when a RACI-row
insert fails partway through — the database is exactly as before the
call (no task row, RACI row, or profile-association row persists) and no
event is emitted. -/
theorem C3_createTask_atomicity (db : DB) (input : CreateTaskInput)
    (creatorUuid newId now : Nat)
    (hfail : (createTask db input creatorUuid newId now).1.isFailure = true) :
    (createTask db input creatorUuid newId now).2.1 = db ∧
    hasEmit (createTask db input creatorUuid newId now).2.2 = false := by
  unfold createTask at hfail ⊢
  cases hpre : input.profilesImpacted.find? (fun code => ¬ db.profiles.contains code) with
  | some code => exact ⟨rfl, rfl⟩
  | none =>
    rw [hpre] at hfail
    dsimp only at hfail ⊢
    unfold runTransaction at hfail ⊢
    rcases createTaskBody_cases input creatorUuid newId now db with
      ⟨e, heq⟩ | ⟨e, dbX, w, heq, hw⟩ | ⟨taskId, dbF, w, heq, hw, htasks⟩
    · rw [heq]
      exact ⟨rfl, rfl⟩
    · rw [heq]
      refine ⟨rfl, ?_⟩
      rw [hasEmit_append, hasEmit_of_allWrites w hw]
      rfl
    · rw [heq] at hfail
      simp [Result.isFailure, Result.isSuccess] at hfail

/-- C3 witness: creating a task listing user 7 under both `R` and `A`
makes the second `task_raci` insert violate the primary key; the call
fails, the database is unchanged and nothing is emitted. -/
theorem C3_createTask_atomicity_witness :
    (createTask dbEmpty sampleDupRaciInput 7 1 5).2.1 = dbEmpty ∧
    hasEmit (createTask dbEmpty sampleDupRaciInput 7 1 5).2.2 = false :=
  C3_createTask_atomicity dbEmpty sampleDupRaciInput 7 1 5 (by decide)

lemma Result.bind_success {α β ε : Type} {r : Result α ε} {f : α → Result β ε}
    {b : β} (h : Result.bind r f = .success b) :
    ∃ a, r = .success a ∧ f a = .success b := by
  cases r with
  | success a => exact ⟨a, rfl, h⟩
  | failure e => exact absurd h (by simp [Result.bind])

lemma updateRaciStep_facts (taskId : Nat) (input : Option RaciInput) (db : DB) :
    (updateRaciStep taskId input db).2.1.tasks = db.tasks ∧
    (updateRaciStep taskId input db).2.2.all TraceEntry.isWrite = true := by
  unfold updateRaciStep
  cases input with
  | none => exact ⟨rfl, rfl⟩
  | some x =>
    dsimp only
    have hall := insertTaskRacis_allWrites taskId
      { db with taskRaci := db.taskRaci.filter (fun r => ¬ r.taskId = taskId) } x.pairs
    have hframe := insertTaskRacis_frame taskId
      { db with taskRaci := db.taskRaci.filter (fun r => ¬ r.taskId = taskId) } x.pairs
    refine ⟨by simpa using hframe.1, ?_⟩
    simp only [List.all_cons, Bool.and_eq_true]
    exact ⟨rfl, hall⟩

lemma updateProfilesStep_facts (taskId : Nat) (input : Option (List String)) (db : DB) :
    (updateProfilesStep taskId input db).2.1.tasks = db.tasks ∧
    (updateProfilesStep taskId input db).2.2.all TraceEntry.isWrite = true := by
  unfold updateProfilesStep
  cases input with
  | none => exact ⟨rfl, rfl⟩
  | some codes =>
    dsimp only
    by_cases hemp : codes.isEmpty = true
    · rw [if_pos hemp]
      exact ⟨rfl, rfl⟩
    · rw [if_neg hemp]
      rcases hins : insertTaskProfiles taskId
          { db with taskProfiles := db.taskProfiles.filter (fun p => ¬ p.taskId = taskId) }
          codes with ⟨errP, dbP⟩
      have hframe := insertTaskProfiles_frame taskId
        { db with taskProfiles := db.taskProfiles.filter (fun p => ¬ p.taskId = taskId) }
        codes
      rw [hins] at hframe
      cases errP with
      | some e => exact ⟨by simpa using hframe.1, rfl⟩
      | none => exact ⟨by simpa using hframe.1, rfl⟩

lemma updateTaskFinish_cases (taskId : Nat) (input : UpdateTaskInput) (db1 : DB) :
    (∃ e dbX w, updateTaskFinish taskId input db1 = (.thrown e, dbX, w) ∧
      w.all TraceEntry.isWrite = true) ∨
    (∃ dbF w, updateTaskFinish taskId input db1 =
        (.ok (.success ()), dbF, w ++ [TraceEntry.emit (.taskUpdated taskId)]) ∧
      w.all TraceEntry.isWrite = true ∧ dbF.tasks = db1.tasks) := by
  unfold updateTaskFinish
  rcases hraci : updateRaciStep taskId input.raci db1 with ⟨err?, db2, tr2⟩
  have h2 := updateRaciStep_facts taskId input.raci db1
  rw [hraci] at h2
  cases err? with
  | some e =>
    exact Or.inl ⟨e, db2, _, rfl,
      by simp only [List.all_cons, Bool.and_eq_true]; exact ⟨rfl, by simpa using h2.2⟩⟩
  | none =>
    dsimp only
    rcases hprof : updateProfilesStep taskId input.profilesImpacted db2 with ⟨errP, db3, tr3⟩
    have h3 := updateProfilesStep_facts taskId input.profilesImpacted db2
    rw [hprof] at h3
    cases errP with
    | some e =>
      refine Or.inl ⟨e, db3, _, rfl, ?_⟩
      have ha2 : tr2.all TraceEntry.isWrite = true := by simpa using h2.2
      have ha3 : tr3.all TraceEntry.isWrite = true := by simpa using h3.2
      simp [List.all_append, ha2, ha3, TraceEntry.isWrite]
    | none =>
      dsimp only
      refine Or.inr ⟨db3, TraceEntry.dbWrite "task" :: tr2 ++ tr3, by simp, ?_, ?_⟩
      · have ha2 : tr2.all TraceEntry.isWrite = true := by simpa using h2.2
        have ha3 : tr3.all TraceEntry.isWrite = true := by simpa using h3.2
        simp [List.all_append, ha2, ha3, TraceEntry.isWrite]
      · have g3 : db3.tasks = db2.tasks := by simpa using h3.1
        have g2 : db2.tasks = db1.tasks := by simpa using h2.1
        rw [g3, g2]

lemma updateTitle_fst_progress (t : Task) (v : String) (now : Nat) :
    (Task.updateTitle t v now).1.progressCenti = t.progressCenti := by
  unfold Task.updateTitle; split <;> rfl

lemma updateDescription_fst_progress (t : Task) (v : Option String) (now : Nat) :
    (Task.updateDescription t v now).1.progressCenti = t.progressCenti := rfl

lemma updatePriority_fst_progress (t : Task) (v : Int) (now : Nat) :
    (Task.updatePriority t v now).1.progressCenti = t.progressCenti := by
  unfold Task.updatePriority; split <;> rfl

lemma updatePhase_fst_progress (t : Task) (v : String) (now : Nat) :
    (Task.updatePhase t v now).1.progressCenti = t.progressCenti := by
  unfold Task.updatePhase; split <;> rfl

lemma updateOwner_fst_progress (t : Task) (v : Option Nat) (now : Nat) :
    (Task.updateOwner t v now).1.progressCenti = t.progressCenti := rfl

lemma updatePlannedDates_fst_progress (t : Task) (s? e? : Option Nat) (now : Nat) :
    (Task.updatePlannedDates t s? e? now).1.progressCenti = t.progressCenti := by
  unfold Task.updatePlannedDates; split <;> rfl

lemma liftMut_success_progress {t t' : Task} {p : Task × Result Unit Err}
    (hp : p.1.progressCenti = t.progressCenti)
    (h : liftMut p = .success t') : t'.progressCenti = t.progressCenti := by
  unfold liftMut at h
  split at h
  · cases h; exact hp
  · cases h

lemma applyUpdates_progress (db : DB) (taskId : Nat) (input : UpdateTaskInput)
    (userUuid : Nat) (role : Role) (now : Nat) (task0 task : Task)
    (h : applyUpdates db taskId input userUuid role now task0 = .success task) :
    task.progressCenti = task0.progressCenti := by
  unfold applyUpdates at h
  obtain ⟨t1, h1, h⟩ := Result.bind_success h
  obtain ⟨t2, h2, h⟩ := Result.bind_success h
  obtain ⟨t3, h3, h⟩ := Result.bind_success h
  obtain ⟨t4, h4, h⟩ := Result.bind_success h
  obtain ⟨t5, h5, h⟩ := Result.bind_success h
  have e1 : t1.progressCenti = task0.progressCenti := by
    cases hv : input.title with
    | none => rw [hv] at h1; cases h1; rfl
    | some v =>
      rw [hv] at h1
      exact liftMut_success_progress (updateTitle_fst_progress task0 v now) h1
  have e2 : t2.progressCenti = t1.progressCenti := by
    cases hv : input.description with
    | none => rw [hv] at h2; cases h2; rfl
    | some v =>
      rw [hv] at h2
      exact liftMut_success_progress (updateDescription_fst_progress t1 (some v) now) h2
  have e3 : t3.progressCenti = t2.progressCenti := by
    cases hv : input.priority with
    | none => rw [hv] at h3; cases h3; rfl
    | some v =>
      rw [hv] at h3
      exact liftMut_success_progress (updatePriority_fst_progress t2 v now) h3
  have e4 : t4.progressCenti = t3.progressCenti := by
    cases hv : input.phaseCode with
    | none => rw [hv] at h4; cases h4; rfl
    | some code =>
      rw [hv] at h4
      dsimp only [applyOpt] at h4
      by_cases hc : code = t3.phaseCode
      · rw [if_pos hc] at h4; cases h4; rfl
      · rw [if_neg hc] at h4
        cases hcp : canChangePhase db taskId userUuid role with
        | failure e => rw [hcp] at h4; cases h4
        | success b =>
          rw [hcp] at h4
          dsimp only at h4
          by_cases hb : b = true
          · rw [if_neg (by simp [hb])] at h4
            exact liftMut_success_progress (updatePhase_fst_progress t3 code now) h4
          · rw [if_pos hb] at h4
            cases h4
  have e5 : t5.progressCenti = t4.progressCenti := by
    cases hv : input.ownerUuid with
    | none => rw [hv] at h5; cases h5; rfl
    | some v =>
      rw [hv] at h5
      exact liftMut_success_progress (updateOwner_fst_progress t4 (some v) now) h5
  have e6 : task.progressCenti = t5.progressCenti := by
    by_cases hd : (input.plannedStart.isSome ∨ input.plannedEnd.isSome)
    · rw [if_pos hd] at h
      exact liftMut_success_progress (updatePlannedDates_fst_progress t5 input.plannedStart input.plannedEnd now) h
    · rw [if_neg hd] at h
      cases h; rfl
  omega

lemma findTaskById_success {db : DB} {taskId : Nat} {task : Task}
    (h : findTaskById db taskId = .success task) :
    task ∈ db.tasks ∧ task.id = taskId := by
  unfold findTaskById at h
  cases hf : db.tasks.find? (fun t => decide (t.id = taskId)) with
  | none => rw [hf] at h; cases h
  | some row =>
    rw [hf] at h
    have hrow := taskCreate_success_eq h
    subst hrow
    refine ⟨List.mem_of_find?_eq_some hf, ?_⟩
    have := List.find?_some hf
    simpa using this

lemma eq_of_mem_pairwise_ids :
    ∀ {l : List Task}, l.Pairwise (fun a b => ¬ a.id = b.id) →
      ∀ {a b : Task}, a ∈ l → b ∈ l → a.id = b.id → a = b
  | [], _, a, b, ha, _, _ => absurd ha (by simp)
  | x :: xs, hpw, a, b, ha, hb, hid => by
    rcases List.pairwise_cons.mp hpw with ⟨hx, hxs⟩
    rcases List.mem_cons.mp ha with rfl | ha2
    · rcases List.mem_cons.mp hb with rfl | hb2
      · rfl
      · exact absurd hid (hx b hb2)
    · rcases List.mem_cons.mp hb with rfl | hb2
      · exact absurd hid.symm (hx a ha2)
      · exact eq_of_mem_pairwise_ids hxs ha2 hb2 hid

/-- C9: a client can never set progress directly.  `createTask` persists
every task row it adds with progress 0 whatever the input, and
`updateTask` (whose input type has no progress field) leaves the stored
`(id, progress)` column content of the task table unchanged under the
primary-key uniqueness invariant, whatever update fields are supplied. -/
theorem C9_progress_never_client_set :
    (∀ (db : DB) (input : CreateTaskInput) (creatorUuid newId now : Nat),
      (createTask db input creatorUuid newId now).1.isSuccess = true →
      ∀ t ∈ (createTask db input creatorUuid newId now).2.1.tasks,
        t ∉ db.tasks → t.progressCenti = 0) ∧
    (∀ (db : DB) (taskId : Nat) (input : UpdateTaskInput)
        (userUuid : Nat) (role : Role) (now : Nat),
      db.tasks.Pairwise (fun a b => ¬ a.id = b.id) →
      (updateTask db taskId input userUuid role now).2.1.tasks.map
          (fun t => (t.id, t.progressCenti)) =
        db.tasks.map (fun t => (t.id, t.progressCenti))) := by
  constructor
  · intro db input creatorUuid newId now hsucc t ht hnew
    unfold createTask at hsucc ht
    cases hpre : input.profilesImpacted.find?
        (fun code => ¬ db.profiles.contains code) with
    | some code =>
      rw [hpre] at hsucc
      exact absurd hsucc (by simp [Result.isSuccess])
    | none =>
      rw [hpre] at hsucc ht
      unfold runTransaction at hsucc ht
      rcases createTaskBody_cases input creatorUuid newId now db with
        ⟨e, heq⟩ | ⟨e, dbX, w, heq, hw⟩ | ⟨taskId, dbF, w, heq, hw, htasks⟩
      · rw [heq] at hsucc
        exact absurd hsucc (by simp [Result.isSuccess])
      · rw [heq] at hsucc
        exact absurd hsucc (by simp [Result.isSuccess])
      · rw [heq] at ht
        dsimp only at ht
        rw [htasks] at ht
        rcases List.mem_append.mp ht with hold | hnewRow
        · exact absurd hold hnew
        · rcases List.mem_singleton.mp hnewRow with rfl
          rfl
  · intro db taskId input userUuid role now hpw
    unfold updateTask
    cases hfind : findTaskById db taskId with
    | failure e => rfl
    | success task0 =>
      cases hcan : canModifyTask db taskId userUuid role with
      | failure e => rfl
      | success canModify =>
        dsimp only
        by_cases hcm : canModify = true
        · rw [if_neg (by simp [hcm])]
          cases happ : applyUpdates db taskId input userUuid role now task0 with
          | failure e => rfl
          | success task =>
            dsimp only
            unfold runTransaction updateTaskBody
            rcases updateTaskFinish_cases taskId input (updateTaskRow taskId task now db) with
              ⟨e, dbX, w, heq, hw⟩ | ⟨dbF, w, heq, hw, htasks⟩
            · rw [heq]
            · rw [heq]
              dsimp only
              rw [htasks]
              unfold updateTaskRow
              dsimp only
              rw [List.map_map]
              refine List.map_congr_left ?_
              intro t htmem
              by_cases hid : t.id = taskId
              · simp only [Function.comp, if_pos hid]
                have hprog := applyUpdates_progress db taskId input userUuid role now task0 task happ
                rcases findTaskById_success hfind with ⟨hmem0, hid0⟩
                have hteq : t = task0 := eq_of_mem_pairwise_ids hpw htmem hmem0 (by rw [hid, hid0])
                subst hteq
                simp [hprog]
              · simp [Function.comp, if_neg hid]
        · rw [if_pos hcm]

/-- A well-formed partial update: new title, new priority, replacement
RACI map and profile list. -/
def sampleUpdateInput : UpdateTaskInput :=
  { phaseCode := none, pageId := none, title := some "t2", description := none,
    priority := some 4, ownerUuid := none, plannedStart := none, plannedEnd := none,
    profilesImpacted := some ["TEC"], raci := some { r := [6], a := [], c := [], i := [] } }

/-- C9 witness: a concrete successful `createTask` stores progress 0, and
a concrete `updateTask` by owner 7 changing title, priority, RACI and
profiles leaves every stored `(id, progress)` pair untouched. -/
theorem C9_progress_never_client_set_witness :
    (∀ t ∈ (createTask dbEmpty sampleCreateInput 7 1 5).2.1.tasks,
      t ∉ dbEmpty.tasks → t.progressCenti = 0) ∧
    (updateTask dbAuth 1 sampleUpdateInput 7 .DEV 9).2.1.tasks.map
        (fun t => (t.id, t.progressCenti)) =
      dbAuth.tasks.map (fun t => (t.id, t.progressCenti)) :=
  ⟨C9_progress_never_client_set.1 dbEmpty sampleCreateInput 7 1 5 (by decide),
   C9_progress_never_client_set.2 dbAuth 1 sampleUpdateInput 7 .DEV 9 (by decide)⟩

lemma createSubTaskCopyRacis_cases (taskId subtaskId : Nat) (db1 : DB) :
    (∃ e dbX w, createSubTaskCopyRacis taskId subtaskId db1 = (.thrown e, dbX, w) ∧
      w.all TraceEntry.isWrite = true) ∨
    (∃ db2 w, createSubTaskCopyRacis taskId subtaskId db1 =
        (.ok (.success subtaskId), db2,
         w ++ [TraceEntry.emit (.subTaskUpdated subtaskId)]) ∧
      w.all TraceEntry.isWrite = true) := by
  unfold createSubTaskCopyRacis
  split
  · exact Or.inr ⟨db1, [TraceEntry.dbWrite "subtask"], rfl, rfl⟩
  · split
    · next e dbX hins => exact Or.inl ⟨e, dbX, _, rfl, rfl⟩
    · next db2 hins =>
      exact Or.inr ⟨db2,
        [TraceEntry.dbWrite "subtask", TraceEntry.dbWrite "subtask_raci"], rfl, rfl⟩

lemma createSubTaskBody_cases (taskId : Nat) (sub : SubTask) (now : Nat) (db : DB) :
    (∃ e dbX w, createSubTaskBody taskId sub now db = (.thrown e, dbX, w) ∧
      w.all TraceEntry.isWrite = true) ∨
    (∃ sid db2 w, createSubTaskBody taskId sub now db =
        (.ok (.success sid), db2, w ++ [TraceEntry.emit (.subTaskUpdated sid)]) ∧
      w.all TraceEntry.isWrite = true) := by
  unfold createSubTaskBody createSubTaskReadBack
  split
  · exact Or.inl ⟨_, _, [], rfl, rfl⟩
  · split
    · exact Or.inl ⟨_, _, _, rfl, rfl⟩
    · next saved hsaved =>
      rcases createSubTaskCopyRacis_cases taskId saved.id _ with
        ⟨e, dbX, w, heq, hw⟩ | ⟨db2, w, heq, hw⟩
      · exact Or.inl ⟨e, dbX, w, heq, hw⟩
      · exact Or.inr ⟨saved.id, db2, w, heq, hw⟩

lemma createTask_trace_cases (db : DB) (input : CreateTaskInput)
    (creatorUuid newId now : Nat) :
    ((createTask db input creatorUuid newId now).1.isFailure = true ∧
      hasEmit (createTask db input creatorUuid newId now).2.2 = false) ∨
    ((createTask db input creatorUuid newId now).1.isSuccess = true ∧
      ∃ w e, (createTask db input creatorUuid newId now).2.2 =
          w ++ [TraceEntry.emit e, TraceEntry.commit] ∧
        w.all TraceEntry.isWrite = true) := by
  unfold createTask
  cases hpre : input.profilesImpacted.find?
      (fun code => ¬ db.profiles.contains code) with
  | some code => exact Or.inl ⟨rfl, rfl⟩
  | none =>
    unfold runTransaction
    rcases createTaskBody_cases input creatorUuid newId now db with
      ⟨e, heq⟩ | ⟨e, dbX, w, heq, hw⟩ | ⟨taskId, dbF, w, heq, hw, htasks⟩
    · rw [heq]
      exact Or.inl ⟨rfl, rfl⟩
    · rw [heq]
      refine Or.inl ⟨rfl, ?_⟩
      rw [hasEmit_append, hasEmit_of_allWrites w hw]
      rfl
    · rw [heq]
      refine Or.inr ⟨rfl, w, .taskCreated taskId, ?_, hw⟩
      dsimp only
      rw [List.append_assoc]
      rfl

lemma updateTask_trace_cases (db : DB) (taskId : Nat) (input : UpdateTaskInput)
    (userUuid : Nat) (role : Role) (now : Nat) :
    ((updateTask db taskId input userUuid role now).1.isFailure = true ∧
      hasEmit (updateTask db taskId input userUuid role now).2.2 = false) ∨
    ((updateTask db taskId input userUuid role now).1.isSuccess = true ∧
      ∃ w e, (updateTask db taskId input userUuid role now).2.2 =
          w ++ [TraceEntry.emit e, TraceEntry.commit] ∧
        w.all TraceEntry.isWrite = true) := by
  unfold updateTask
  cases hfind : findTaskById db taskId with
  | failure e => exact Or.inl ⟨rfl, rfl⟩
  | success task0 =>
    cases hcan : canModifyTask db taskId userUuid role with
    | failure e => exact Or.inl ⟨rfl, rfl⟩
    | success canModify =>
      dsimp only
      by_cases hcm : canModify = true
      · rw [if_neg (by simp [hcm])]
        cases happ : applyUpdates db taskId input userUuid role now task0 with
        | failure e => exact Or.inl ⟨rfl, rfl⟩
        | success task =>
          dsimp only
          unfold runTransaction updateTaskBody
          rcases updateTaskFinish_cases taskId input (updateTaskRow taskId task now db) with
            ⟨e, dbX, w, heq, hw⟩ | ⟨dbF, w, heq, hw, htasks⟩
          · rw [heq]
            refine Or.inl ⟨rfl, ?_⟩
            rw [hasEmit_append, hasEmit_of_allWrites w hw]
            rfl
          · rw [heq]
            refine Or.inr ⟨rfl, w, .taskUpdated taskId, ?_, hw⟩
            dsimp only
            rw [List.append_assoc]
            rfl
      · rw [if_pos hcm]
        exact Or.inl ⟨rfl, rfl⟩

lemma createSubTask_trace_cases (db : DB) (taskId : Nat) (title : String)
    (done : Bool) (userUuid : Nat) (role : Role) (newId now : Nat) :
    ((createSubTask db taskId title done userUuid role newId now).1.isFailure = true ∧
      hasEmit (createSubTask db taskId title done userUuid role newId now).2.2 = false) ∨
    ((createSubTask db taskId title done userUuid role newId now).1.isSuccess = true ∧
      ∃ w e, (createSubTask db taskId title done userUuid role newId now).2.2 =
          w ++ [TraceEntry.emit e, TraceEntry.commit] ∧
        w.all TraceEntry.isWrite = true) := by
  unfold createSubTask
  cases hfind : findTaskById db taskId with
  | failure e => exact Or.inl ⟨rfl, rfl⟩
  | success task0 =>
    cases hcan : canModifyTask db taskId userUuid role with
    | failure e => exact Or.inl ⟨rfl, rfl⟩
    | success canModify =>
      dsimp only
      by_cases hcm : canModify = true
      · rw [if_neg (by simp [hcm])]
        cases hsub : SubTask.create
            { id := newId, taskId := taskId, title := title, description := none,
              done := done, createdBy := userUuid, createdAt := now, updatedAt := now } with
        | failure e => exact Or.inl ⟨rfl, rfl⟩
        | success sub =>
          dsimp only
          unfold runTransaction
          rcases createSubTaskBody_cases taskId sub now db with
            ⟨e, dbX, w, heq, hw⟩ | ⟨sid, db2, w, heq, hw⟩
          · rw [heq]
            refine Or.inl ⟨rfl, ?_⟩
            rw [hasEmit_append, hasEmit_of_allWrites w hw]
            rfl
          · rw [heq]
            refine Or.inr ⟨rfl, w, .subTaskUpdated sid, ?_, hw⟩
            dsimp only
            rw [List.append_assoc]
            rfl
      · rw [if_pos hcm]
        exact Or.inl ⟨rfl, rfl⟩

/-- C2 counterexample: a concrete successful `createTask` emits its
`task created` event, yet the trace violates the claimed
emitted-strictly-after-commit ordering — the emission happens inside the
transaction, before the commit. -/
theorem C2_counterexample :
    (createTask dbEmpty sampleCreateInput 7 1 5).1.isSuccess = true ∧
    hasEmit (createTask dbEmpty sampleCreateInput 7 1 5).2.2 = true ∧
    emitsStrictlyAfterCommit (createTask dbEmpty sampleCreateInput 7 1 5).2.2 = false := by
  decide

/-- C2 (amended): for `createTask`, `updateTask` and `createSubTask` the
realtime notification is emitted inside the transaction — after every SQL
write of the use case but before the commit, which closes the trace — and
when the use case fails (the transaction aborts or a step before it
fails) no notification is emitted at all. -/
theorem C2_emit_inside_transaction_amended :
    (∀ (db : DB) (input : CreateTaskInput) (creatorUuid newId now : Nat),
      ((createTask db input creatorUuid newId now).1.isFailure = true →
        hasEmit (createTask db input creatorUuid newId now).2.2 = false) ∧
      ((createTask db input creatorUuid newId now).1.isSuccess = true →
        hasEmit (createTask db input creatorUuid newId now).2.2 = true ∧
        (createTask db input creatorUuid newId now).2.2.getLast? =
          some TraceEntry.commit ∧
        writesPrecedeEmits (createTask db input creatorUuid newId now).2.2 = true ∧
        emitsStrictlyAfterCommit (createTask db input creatorUuid newId now).2.2 = false)) ∧
    (∀ (db : DB) (taskId : Nat) (input : UpdateTaskInput) (userUuid : Nat)
        (role : Role) (now : Nat),
      ((updateTask db taskId input userUuid role now).1.isFailure = true →
        hasEmit (updateTask db taskId input userUuid role now).2.2 = false) ∧
      ((updateTask db taskId input userUuid role now).1.isSuccess = true →
        hasEmit (updateTask db taskId input userUuid role now).2.2 = true ∧
        (updateTask db taskId input userUuid role now).2.2.getLast? =
          some TraceEntry.commit ∧
        writesPrecedeEmits (updateTask db taskId input userUuid role now).2.2 = true ∧
        emitsStrictlyAfterCommit
          (updateTask db taskId input userUuid role now).2.2 = false)) ∧
    (∀ (db : DB) (taskId : Nat) (title : String) (done : Bool) (userUuid : Nat)
        (role : Role) (newId now : Nat),
      ((createSubTask db taskId title done userUuid role newId now).1.isFailure = true →
        hasEmit (createSubTask db taskId title done userUuid role newId now).2.2 = false) ∧
      ((createSubTask db taskId title done userUuid role newId now).1.isSuccess = true →
        hasEmit (createSubTask db taskId title done userUuid role newId now).2.2 = true ∧
        (createSubTask db taskId title done userUuid role newId now).2.2.getLast? =
          some TraceEntry.commit ∧
        writesPrecedeEmits
          (createSubTask db taskId title done userUuid role newId now).2.2 = true ∧
        emitsStrictlyAfterCommit
          (createSubTask db taskId title done userUuid role newId now).2.2 = false)) := by
  refine ⟨fun db input creatorUuid newId now => ?_,
          fun db taskId input userUuid role now => ?_,
          fun db taskId title done userUuid role newId now => ?_⟩
  · rcases createTask_trace_cases db input creatorUuid newId now with
      ⟨hf, hne⟩ | ⟨hs, w, e, htr, hw⟩
    · refine ⟨fun _ => hne, fun hsucc => ?_⟩
      rw [Result.isFailure] at hf
      simp [hsucc] at hf
    · refine ⟨fun hfail => ?_, fun _ => ?_⟩
      · rw [Result.isFailure, hs] at hfail
        simp at hfail
      · rw [htr]
        exact trace_shape_ok w e hw
  · rcases updateTask_trace_cases db taskId input userUuid role now with
      ⟨hf, hne⟩ | ⟨hs, w, e, htr, hw⟩
    · refine ⟨fun _ => hne, fun hsucc => ?_⟩
      rw [Result.isFailure] at hf
      simp [hsucc] at hf
    · refine ⟨fun hfail => ?_, fun _ => ?_⟩
      · rw [Result.isFailure, hs] at hfail
        simp at hfail
      · rw [htr]
        exact trace_shape_ok w e hw
  · rcases createSubTask_trace_cases db taskId title done userUuid role newId now with
      ⟨hf, hne⟩ | ⟨hs, w, e, htr, hw⟩
    · refine ⟨fun _ => hne, fun hsucc => ?_⟩
      rw [Result.isFailure] at hf
      simp [hsucc] at hf
    · refine ⟨fun hfail => ?_, fun _ => ?_⟩
      · rw [Result.isFailure, hs] at hfail
        simp at hfail
      · rw [htr]
        exact trace_shape_ok w e hw

/-- C2 witness: the amended ordering evaluated on a concrete successful
`createTask` run. -/
theorem C2_emit_inside_transaction_amended_witness :
    hasEmit (createTask dbEmpty sampleCreateInput 7 1 5).2.2 = true ∧
    (createTask dbEmpty sampleCreateInput 7 1 5).2.2.getLast? =
      some TraceEntry.commit ∧
    writesPrecedeEmits (createTask dbEmpty sampleCreateInput 7 1 5).2.2 = true ∧
    emitsStrictlyAfterCommit (createTask dbEmpty sampleCreateInput 7 1 5).2.2 = false :=
  (C2_emit_inside_transaction_amended.1 dbEmpty sampleCreateInput 7 1 5).2 (by decide)

lemma find?_map_pred {α : Type} (f : α → α) (p : α → Bool)
    (hp : ∀ x, p (f x) = p x) :
    ∀ l : List α, (l.map f).find? p = (l.find? p).map f
  | [] => rfl
  | x :: l => by
    by_cases hx : p x = true
    · rw [List.map_cons, List.find?_cons_of_pos _ (by rw [hp]; exact hx),
        List.find?_cons_of_pos _ hx]
      rfl
    · rw [List.map_cons, List.find?_cons_of_neg _ (by rw [hp]; simpa using hx),
        List.find?_cons_of_neg _ (by simpa using hx)]
      exact find?_map_pred f p hp l

lemma findSubTaskById_success {db : DB} {subtaskId : Nat} {s : SubTask}
    (h : findSubTaskById db subtaskId = .success s) :
    db.subtasks.find? (fun r => r.id = subtaskId) = some s ∧
    s ∈ db.subtasks ∧ s.id = subtaskId := by
  unfold findSubTaskById at h
  cases hf : db.subtasks.find? (fun r => decide (r.id = subtaskId)) with
  | none => rw [hf] at h; cases h
  | some row =>
    rw [hf] at h
    have hrow := subTaskCreate_success_eq h
    subst hrow
    refine ⟨rfl, List.mem_of_find?_eq_some hf, ?_⟩
    have := List.find?_some hf
    simpa using this

lemma subTaskSaveExisting_spec (db : DB) (s : SubTask) (now : Nat) :
    (subTaskSaveExisting db s now).subtasks =
      db.subtasks.map (fun r =>
        if r.id = s.id then
          { r with title := s.title, description := s.description,
                   done := s.done, updatedAt := now }
        else r) ∧
    (subTaskSaveExisting db s now).tasks =
      db.tasks.map (fun t =>
        if t.id = s.taskId then
          { t with
            progressCenti := triggerProgressCenti
              { db with subtasks := (subTaskSaveExisting db s now).subtasks } s.taskId,
            updatedAt := now }
        else t) :=
  ⟨rfl, rfl⟩

/-- C1 counterexample: toggling one of three subtasks to completed makes
the trigger store progress 33.33 (3333 hundredths of a percent), while
the claimed integer rounding (the repository's own
`calculateTaskProgress` formula) yields 33 (3300 hundredths); and
re-completing the single already-completed subtask of `dbAllDone` leaves
progress at 100.00 yet still re-persists the parent row, refreshing its
`updated_at` from 50 to 100 — the value is not written only when it
differs. -/
theorem C1_counterexample :
    ((updateSubTaskStatus dbThreeSubs 1 true 7 .DEV 100).2.1.tasks.map
        (fun t => t.progressCenti) = [3333] ∧
      calculateTaskProgressCenti
        (updateSubTaskStatus dbThreeSubs 1 true 7 .DEV 100).2.1 1 = 3300 ∧
      ¬ (3333 : Nat) = 3300) ∧
    ((updateSubTaskStatus dbAllDone 1 true 7 .DEV 100).2.1.tasks.map
        (fun t => (t.progressCenti, t.updatedAt)) = [(10000, 100)] ∧
      dbAllDone.tasks.map (fun t => (t.progressCenti, t.updatedAt)) = [(10000, 50)]) := by
  decide

/-- C1 (amended): after every successful `updateSubTaskStatus` call the
parent task's stored progress equals 100 × completed/total rounded to two
decimal places (the `decimal(5,2)` rounding of the `subtask_progress`
trigger, not an integer rounding), computed over the subtasks after the
toggle; total > 0 always holds because the toggled subtask itself exists,
so the zero-subtask case cannot arise; and the recomputed value is
persisted unconditionally by the trigger — the parent row is rewritten
(stamping its `updated_at` to the toggle time) even when the value is
unchanged. -/
theorem C1_progress_trigger_amended
    (db : DB) (subtaskId : Nat) (done : Bool) (userUuid : Nat) (role : Role)
    (now : Nat) (sub : SubTask) (db' : DB) (tr : List TraceEntry)
    (hrun : updateSubTaskStatus db subtaskId done userUuid role now =
      (.success sub, db', tr)) :
    (db'.subtasks.filter fun s => s.taskId = sub.taskId) ≠ [] ∧
    ∀ t ∈ db'.tasks, t.id = sub.taskId →
      t.progressCenti =
        roundHalfUp
          (10000 * ((db'.subtasks.filter fun s => s.taskId = sub.taskId).filter
              fun s => s.done).length)
          (db'.subtasks.filter fun s => s.taskId = sub.taskId).length ∧
      t.updatedAt = now := by
  unfold updateSubTaskStatus at hrun
  cases hfs : findSubTaskById db subtaskId with
  | failure e => rw [hfs] at hrun; simp at hrun
  | success subtask0 =>
    rw [hfs] at hrun
    dsimp only at hrun
    cases hcan : canModifyTask db subtask0.taskId userUuid role with
    | failure e => rw [hcan] at hrun; simp at hrun
    | success canModify =>
      rw [hcan] at hrun
      dsimp only at hrun
      by_cases hcm : canModify = true
      · rw [if_neg (by simp [hcm])] at hrun
        rcases findSubTaskById_success hfs with ⟨hfind0, hmem0, hid0⟩
        have hid1 : (if done then subtask0.markCompleted now
            else subtask0.markIncomplete now).id = subtask0.id := by
          cases done <;> rfl
        have htid1 : (if done then subtask0.markCompleted now
            else subtask0.markIncomplete now).taskId = subtask0.taskId := by
          cases done <;> rfl
        cases hfs1 : findSubTaskById
            (subTaskSaveExisting db
              (if done then subtask0.markCompleted now
               else subtask0.markIncomplete now) now) subtaskId with
        | failure e => rw [hfs1] at hrun; simp at hrun
        | success updatedSubtask =>
          rw [hfs1] at hrun
          dsimp only at hrun
          have hmain : Result.success updatedSubtask =
              (Result.success sub : Result SubTask Err) ∧
              subTaskSaveExisting db
                (if done then subtask0.markCompleted now
                 else subtask0.markIncomplete now) now = db' := by
            cases hft : findTaskById
                (subTaskSaveExisting db
                  (if done then subtask0.markCompleted now
                   else subtask0.markIncomplete now) now) subtask0.taskId with
            | success t0 =>
              rw [hft] at hrun
              simp only [Prod.mk.injEq] at hrun
              exact ⟨hrun.1, hrun.2.1⟩
            | failure e =>
              rw [hft] at hrun
              simp only [Prod.mk.injEq] at hrun
              exact ⟨hrun.1, hrun.2.1⟩
          obtain ⟨hsub, hdb⟩ := hmain
          injection hsub with hsub
          subst hsub
          subst hdb
          rcases findSubTaskById_success hfs1 with ⟨hfind1, hmem1, hid1b⟩
          rcases subTaskSaveExisting_spec db
            (if done then subtask0.markCompleted now
             else subtask0.markIncomplete now) now with ⟨hsubs, htasks⟩
          -- the returned subtask is the updated image of the found row
          have hpred : ∀ x : SubTask,
              (fun r : SubTask => decide (r.id = subtaskId))
                ((fun r : SubTask =>
                  if r.id = (if done then subtask0.markCompleted now
                             else subtask0.markIncomplete now).id then
                    { r with
                      title := (if done then subtask0.markCompleted now
                                else subtask0.markIncomplete now).title,
                      description := (if done then subtask0.markCompleted now
                                      else subtask0.markIncomplete now).description,
                      done := (if done then subtask0.markCompleted now
                               else subtask0.markIncomplete now).done,
                      updatedAt := now }
                  else r) x) =
              (fun r : SubTask => decide (r.id = subtaskId)) x := by
            intro x
            by_cases hx : x.id = (if done then subtask0.markCompleted now
                else subtask0.markIncomplete now).id
            · simp [hx]
            · simp [hx]
          have hfind1b := hfind1
          rw [hsubs, find?_map_pred _ _ hpred, hfind0] at hfind1b
          have hsubeq : updatedSubtask =
              { subtask0 with
                title := (if done then subtask0.markCompleted now
                          else subtask0.markIncomplete now).title,
                description := (if done then subtask0.markCompleted now
                                else subtask0.markIncomplete now).description,
                done := (if done then subtask0.markCompleted now
                         else subtask0.markIncomplete now).done,
                updatedAt := now } := by
            simp only [Option.map_some'] at hfind1b
            rw [if_pos hid1.symm] at hfind1b
            injection hfind1b with h
            exact h.symm
          have hkey : updatedSubtask.taskId = subtask0.taskId := by
            rw [hsubeq]
          have hfilterne : ((subTaskSaveExisting db
              (if done then subtask0.markCompleted now
               else subtask0.markIncomplete now) now).subtasks.filter
                fun s => s.taskId = updatedSubtask.taskId) ≠ [] :=
            List.ne_nil_of_mem (List.mem_filter.mpr ⟨hmem1, by simp⟩)
          refine ⟨hfilterne, ?_⟩
          intro t ht htid
          rw [htasks] at ht
          rcases List.mem_map.mp ht with ⟨t0, ht0, rfl⟩
          have htid0 : t0.id = updatedSubtask.taskId := by
            by_cases hsel : t0.id = (if done then subtask0.markCompleted now
                else subtask0.markIncomplete now).taskId
            · simpa [hsel] using htid
            · simpa [hsel] using htid
          have hsel : t0.id = (if done then subtask0.markCompleted now
              else subtask0.markIncomplete now).taskId := by
            rw [htid0, hkey, htid1]
          rw [if_pos hsel]
          refine ⟨?_, rfl⟩
          dsimp only
          unfold triggerProgressCenti
          dsimp only
          rw [htid1]
          rw [show updatedSubtask.taskId = subtask0.taskId from hkey]
          have hlen : ((subTaskSaveExisting db
              (if done then subtask0.markCompleted now
               else subtask0.markIncomplete now) now).subtasks.filter
                fun s => s.taskId = subtask0.taskId).length ≠ 0 := by
            rw [Ne, List.length_eq_zero]
            rw [hkey] at hfilterne
            exact hfilterne
          rw [if_neg hlen]
      · rw [if_pos hcm] at hrun
        simp at hrun

/-- The subtask row returned by the sample toggle on `dbThreeSubs`. -/
def toggledSub : SubTask := { mkSub 1 true with updatedAt := 100 }

/-- C1 witness: the amended statement evaluated on the concrete toggle of
subtask 1 of `dbThreeSubs` (progress becomes 3333 hundredths = 33.33%). -/
theorem C1_progress_trigger_amended_witness :
    ((updateSubTaskStatus dbThreeSubs 1 true 7 .DEV 100).2.1.subtasks.filter
        fun s => s.taskId = toggledSub.taskId) ≠ [] ∧
    ∀ t ∈ (updateSubTaskStatus dbThreeSubs 1 true 7 .DEV 100).2.1.tasks,
      t.id = toggledSub.taskId →
        t.progressCenti =
          roundHalfUp
            (10000 * (((updateSubTaskStatus dbThreeSubs 1 true 7 .DEV 100).2.1.subtasks.filter
                fun s => s.taskId = toggledSub.taskId).filter fun s => s.done).length)
            ((updateSubTaskStatus dbThreeSubs 1 true 7 .DEV 100).2.1.subtasks.filter
                fun s => s.taskId = toggledSub.taskId).length ∧
        t.updatedAt = 100 :=
  C1_progress_trigger_amended dbThreeSubs 1 true 7 .DEV 100 toggledSub _
    (updateSubTaskStatus dbThreeSubs 1 true 7 .DEV 100).2.2 (by decide)

lemma firstByCreatedAtDesc_concat {α : Type} (f : α → Nat) (x : α) :
    ∀ l : List α, (∀ y ∈ l, f y < f x) →
      firstByCreatedAtDesc f (l ++ [x]) = some x
  | [], _ => rfl
  | a :: l, h => by
    have ih := firstByCreatedAtDesc_concat f x l
      (fun y hy => h y (List.mem_cons_of_mem a hy))
    rw [List.cons_append]
    unfold firstByCreatedAtDesc
    rw [ih]
    dsimp only
    rw [if_pos (h a (List.mem_cons_self a l))]

lemma createSubTaskBody_fresh (taskId : Nat) (sub : SubTask) (now : Nat) (db : DB)
    (hfreshId : ∀ s ∈ db.subtasks, ¬ s.id = sub.id)
    (htime : ∀ s ∈ db.subtasks, s.createdAt < sub.createdAt) :
    (∃ e dbX w, createSubTaskBody taskId sub now db = (.thrown e, dbX, w)) ∨
    (∃ dbF w, createSubTaskBody taskId sub now db = (.ok (.success sub.id), dbF, w) ∧
      dbF.taskRaci = db.taskRaci ∧
      dbF.subtaskRaci = db.subtaskRaci ++
        (db.taskRaci.filter fun r => r.taskId = taskId).map
          (fun r => ⟨sub.id, r.userUuid, r.letter⟩)) := by
  unfold createSubTaskBody
  have hany : (db.subtasks.any fun s => decide (s.id = sub.id)) = false := by
    rw [List.any_eq_false]
    intro s hs
    simpa using hfreshId s hs
  rw [if_neg (by simp only [hany]; exact fun h => Bool.noConfusion h)]
  unfold createSubTaskReadBack
  rw [show (fn_task_progress { db with subtasks := db.subtasks ++ [sub] }
      sub.taskId now).subtasks = db.subtasks ++ [sub] from rfl]
  rw [List.filter_append]
  rw [show List.filter
      (fun s : SubTask =>
        decide (s.title = sub.title ∧ s.taskId = sub.taskId ∧
          s.createdBy = sub.createdBy)) [sub] = [sub] from by simp]
  rw [firstByCreatedAtDesc_concat (fun s : SubTask => s.createdAt) sub _
    (fun y hy => htime y (List.mem_filter.mp hy).1)]
  dsimp only
  unfold createSubTaskCopyRacis
  rw [show (fn_task_progress { db with subtasks := db.subtasks ++ [sub] }
      sub.taskId now).taskRaci = db.taskRaci from rfl]
  by_cases hemp : (db.taskRaci.filter fun r => decide (r.taskId = taskId)).isEmpty = true
  · rw [if_pos hemp]
    refine Or.inr ⟨_, _, rfl, rfl, ?_⟩
    have hnil : (db.taskRaci.filter fun r => decide (r.taskId = taskId)) = [] := by
      simpa [List.isEmpty_iff] using hemp
    rw [show (fn_task_progress { db with subtasks := db.subtasks ++ [sub] }
        sub.taskId now).subtaskRaci = db.subtaskRaci from rfl, hnil]
    simp
  · rw [if_neg hemp]
    split
    · next e dbX hins => exact Or.inl ⟨e, dbX, _, rfl⟩
    · next db2 hins =>
      refine Or.inr ⟨db2, _, rfl, ?_, ?_⟩
      · have hframe := insertSubTaskRacis_frame sub.id
          (fn_task_progress { db with subtasks := db.subtasks ++ [sub] } sub.taskId now)
          ((db.taskRaci.filter fun r => decide (r.taskId = taskId)).map
            fun r => (r.userUuid, r.letter))
        rw [hins] at hframe
        exact hframe.2.2.1.symm ▸ rfl
      · have hsucc := insertSubTaskRacis_success sub.id
          (fn_task_progress { db with subtasks := db.subtasks ++ [sub] } sub.taskId now)
          db2
          ((db.taskRaci.filter fun r => decide (r.taskId = taskId)).map
            fun r => (r.userUuid, r.letter)) hins
        rw [hsucc, List.map_map]
        rfl

/-- C5: a subtask created by `createSubTask` — with a fresh id, a
creation time later than every existing subtask's, and no pre-existing
`subtask_raci` rows under the fresh id, as the serial key and the foreign
key of the live schema guarantee — carries, immediately after creation,
exactly the `(user, letter)` pairs of its parent's RACI set, in order;
the creation leaves the parent's task-level set untouched, and the
subtask-level RACI mutators (`saveSubTaskRaci`, `deleteAllForSubTask`)
never alter the task-level set: the copy is structural, not shared. -/
theorem C5_subtask_raci_copy
    (db : DB) (taskId : Nat) (title : String) (done : Bool)
    (userUuid : Nat) (role : Role) (newId now : Nat)
    (sid : Nat) (db' : DB) (tr : List TraceEntry)
    (hfreshId : ∀ s ∈ db.subtasks, ¬ s.id = newId)
    (hfk : ∀ r ∈ db.subtaskRaci, ¬ r.subtaskId = newId)
    (htime : ∀ s ∈ db.subtasks, s.createdAt < now)
    (hrun : createSubTask db taskId title done userUuid role newId now =
      (.success sid, db', tr)) :
    ((db'.subtaskRaci.filter fun r => r.subtaskId = sid).map
        fun r => (r.userUuid, r.letter)) =
      findRaciByTaskId db taskId ∧
    db'.taskRaci = db.taskRaci ∧
    (∀ (db2 : DB) (s u : Nat) (l : RaciLetter),
      (saveSubTaskRaci db2 s u l).taskRaci = db2.taskRaci) ∧
    (∀ (db2 : DB) (s : Nat), (deleteAllForSubTask db2 s).taskRaci = db2.taskRaci) := by
  have hsave : ∀ (db2 : DB) (s u : Nat) (l : RaciLetter),
      (saveSubTaskRaci db2 s u l).taskRaci = db2.taskRaci := by
    intro db2 s u l
    unfold saveSubTaskRaci
    split <;> rfl
  have hdel : ∀ (db2 : DB) (s : Nat),
      (deleteAllForSubTask db2 s).taskRaci = db2.taskRaci := fun _ _ => rfl
  unfold createSubTask at hrun
  cases hft : findTaskById db taskId with
  | failure e => rw [hft] at hrun; simp at hrun
  | success task0 =>
    rw [hft] at hrun
    dsimp only at hrun
    cases hcan : canModifyTask db taskId userUuid role with
    | failure e => rw [hcan] at hrun; simp at hrun
    | success canModify =>
      rw [hcan] at hrun
      dsimp only at hrun
      by_cases hcm : canModify = true
      · rw [if_neg (by simp [hcm])] at hrun
        cases hc : SubTask.create
            { id := newId, taskId := taskId, title := title, description := none,
              done := done, createdBy := userUuid, createdAt := now,
              updatedAt := now } with
        | failure e => rw [hc] at hrun; simp at hrun
        | success sub =>
          rw [hc] at hrun
          have hsub := subTaskCreate_success_eq hc
          subst hsub
          dsimp only at hrun
          unfold runTransaction at hrun
          rcases createSubTaskBody_fresh taskId
              { id := newId, taskId := taskId, title := title, description := none,
                done := done, createdBy := userUuid, createdAt := now,
                updatedAt := now } now db
              (fun s hs => by simpa using hfreshId s hs)
              (fun s hs => by simpa using htime s hs) with
            ⟨e, dbX, w, heq⟩ | ⟨dbF, w, heq, hraci, hsraci⟩
          · rw [heq] at hrun
            simp at hrun
          · rw [heq] at hrun
            dsimp only at hrun
            simp only [Prod.mk.injEq] at hrun
            obtain ⟨hres, hdb, _⟩ := hrun
            injection hres with hres
            subst hres
            subst hdb
            refine ⟨?_, hraci, hsave, hdel⟩
            rw [hsraci, List.filter_append]
            rw [filter_eq_nil_of_no_key (fun r : SubTaskRaci => r.subtaskId = newId)
              db.subtaskRaci (fun r hr => hfk r hr)]
            rw [List.filter_eq_self.mpr ?hall]
            case hall =>
              intro r hr
              rcases List.mem_map.mp hr with ⟨p, hp, rfl⟩
              simp
            rw [List.nil_append, List.map_map]
            rfl
      · rw [if_pos hcm] at hrun
        simp at hrun

/-- C5 witness: creating subtask 9 under task 1 of `dbAuth` (whose RACI
set is `C` for user 5 and `R` for user 6) copies exactly those two pairs
into the new subtask's own set and leaves the task-level set unchanged. -/
theorem C5_subtask_raci_copy_witness :
    (((createSubTask dbAuth 1 "s2" false 7 .DEV 9 50).2.1.subtaskRaci.filter
        fun r => r.subtaskId = 9).map fun r => (r.userUuid, r.letter)) =
      findRaciByTaskId dbAuth 1 ∧
    (createSubTask dbAuth 1 "s2" false 7 .DEV 9 50).2.1.taskRaci = dbAuth.taskRaci ∧
    (∀ (db2 : DB) (s u : Nat) (l : RaciLetter),
      (saveSubTaskRaci db2 s u l).taskRaci = db2.taskRaci) ∧
    (∀ (db2 : DB) (s : Nat), (deleteAllForSubTask db2 s).taskRaci = db2.taskRaci) :=
  C5_subtask_raci_copy dbAuth 1 "s2" false 7 .DEV 9 50 9 _
    (createSubTask dbAuth 1 "s2" false 7 .DEV 9 50).2.2
    (by decide) (by decide) (by decide) (by decide)

end Medacap
